import Mathlib

/-!
# Verification of the `make-thumbnail` generation pipeline (`src/app.py`)

This file gives a shallow embedding of the thumbnail-generation pipeline of
`app.py` and proves or refutes the frozen claims about it.

Modelling conventions:

* Filesystem paths are lists of components (`List String`); `pathStr` renders
  them the way Python's `str(Path)` joins components.
* External effects (PIL decoding, `exiftool` subprocesses, `stat`, the font
  file, per-path failures of `mkdir`/`save`/`Path.exists`) are supplied by an
  `Env` record of deterministic functions; the pipeline itself is translated
  from the Python source line by line.
* In-memory images are symbolic terms (`Img`): each PIL operation used by the
  program appends a constructor, so theorems can talk about exactly which
  transformation was applied.  Pixel contents are not modelled.
* The run of a pipeline returns an explicit trace of filesystem events
  (`Event`); `applyTrace` folds the trace into a filesystem state, so frame
  properties are statements about the trace.
* Python `float` arithmetic in PIL's `Image.thumbnail` is modelled by exact
  integer arithmetic (the floor/ceil/compare structure of the PIL source is
  kept; only float rounding error is idealised away).
-/

/-- Python's `str.lower()` restricted to the ASCII use here. -/
def pyLower (s : String) : String := String.mk (s.data.map Char.toLower)

/-- Python's `pathlib.PurePath.suffix`: the final dot-suffix of a name,
empty unless the last dot sits strictly inside the name. -/
def pySuffix (s : String) : String :=
  let cs := s.data
  match (List.range cs.length).reverse.find? (fun i => cs.get? i = some '.') with
  | some i => if 0 < i ∧ i < cs.length - 1 then String.mk (cs.drop i) else ""
  | none => ""

/-- Python's `str.strip()`: drop whitespace at both ends. -/
def pyStrip (s : String) : String :=
  String.mk (((s.data.dropWhile Char.isWhitespace).reverse.dropWhile
    Char.isWhitespace).reverse)

/-- Python's `int()` on a rational: truncation toward zero. -/
def pyInt (q : ℚ) : ℤ := if q < 0 then ⌈q⌉ else ⌊q⌋

/-- `SUPPORTED_EXTENSIONS` from `app.py`. -/
def SUPPORTED_EXTENSIONS : List String :=
  [".jpg", ".jpeg", ".png", ".cr2", ".cr3", ".arw"]

/-- The RAW-format extensions tested at line 159 of `app.py`. -/
def RAW_EXTENSIONS : List String := [".cr3", ".cr2", ".arw"]

/-- `FONT` from `app.py`. -/
def FONT : String := "/usr/share/fonts/truetype/jetbrains-mono/JetBrainsMono-Bold.ttf"

/-- One entry of `THUMBNAIL_CONFIG`: bounding box and label font size. -/
structure TierCfg where
  size : ℕ × ℕ
  font_size : ℕ
deriving DecidableEq, Repr

/-- `THUMBNAIL_CONFIG` from `app.py` (insertion order of the Python dict). -/
def THUMBNAIL_CONFIG : List (String × TierCfg) :=
  [("normal", ⟨(128, 128), 20⟩),
   ("large", ⟨(256, 256), 30⟩),
   ("x-large", ⟨(512, 512), 40⟩)]

/-- The tier names, in configuration order. -/
def tierLabels : List String := THUMBNAIL_CONFIG.map Prod.fst

/-- Font size configured for a tier label. -/
def fontSizeOf (label : String) : ℕ :=
  ((THUMBNAIL_CONFIG.lookup label).map TierCfg.font_size).getD 0

/-- `str(Path)`: join components. -/
def pathStr (p : List String) : String := String.intercalate "/" p

/-- Final component of a path (`Path.name`). -/
def lastComp (p : List String) : String := p.getLastD ""

/-- The `suffix.lower() in SUPPORTED_EXTENSIONS` test used throughout `app.py`. -/
def suffOk (s : String) : Bool := pyLower (pySuffix s) ∈ SUPPORTED_EXTENSIONS

/-- `q` is `p` itself or an ancestor directory of `p` (initial segment). -/
def initSeg : List String → List String → Bool
  | [], _ => true
  | _ :: _, [] => false
  | a :: as, b :: bs => a = b && initSeg as bs

/-! ## PIL `Image.thumbnail` size computation

`thumb.thumbnail(size, Image.LANCZOS)` (line 174) resizes in place so that the
result fits `size` while keeping the aspect ratio and never upscaling.  The
following is PIL's size computation with exact arithmetic: an early return when
the image already fits, otherwise one dimension is pinned to the box and the
other is the floor or ceiling of the exact aspect-preserving value, whichever
is closer in aspect (floor on ties, clamped to at least 1). -/

/-- The `(width, height)` PIL's `Image.thumbnail` resizes a `w × h` image to,
given bounding box `bw × bh`. -/
def pilThumbnailSize (w h bw bh : ℕ) : ℕ × ℕ :=
  if w ≤ bw ∧ h ≤ bh then (w, h)
  else if bh * w ≤ bw * h then
    -- box is wider than the image: height pinned to bh, width from bh * (w / h)
    let n := bh * w
    let fl := n / h
    let ce := (n + h - 1) / h
    let c := if Nat.dist (fl * h) (w * bh) ≤ Nat.dist (ce * h) (w * bh) then fl else ce
    (max c 1, bh)
  else
    -- box is taller than the image: width pinned to bw, height from bw * (h / w)
    let n := bw * h
    let fl := n / w
    let ce := (n + w - 1) / w
    let c := if fl = 0 then fl
             else if Nat.dist (w * fl) (bw * h) * ce ≤ Nat.dist (w * ce) (bw * h) * fl
             then fl else ce
    (bw, max c 1)

/-! ## Symbolic images, PNG artifacts and filesystem events -/

/-- The label drawn by `add_raw_label`: rectangle then text, both at the
top-left corner. -/
structure LabelSpec where
  text : String
  font : String
  fontSize : ℕ
  pos : ℤ × ℤ
  rect : (ℤ × ℤ) × (ℤ × ℤ)
  fill : String
  textFill : String
deriving DecidableEq, Repr

/-- Symbolic in-memory image: one constructor per PIL operation used. -/
inductive Img where
  /-- `Image.open(path)` on a standard format file. -/
  | opened : List String → Img
  /-- `Image.open(io.BytesIO(raw))` on raw external bytes. -/
  | fromRaw : List UInt8 → Img
  /-- `ImageOps.exif_transpose(img)`. -/
  | transposed : Img → Img
  /-- `img.rotate(deg, expand=...)`. -/
  | rotated : Img → ℤ → Bool → Img
  /-- `img.copy()` followed by `img.thumbnail(...)`, recording the resulting
  dimensions. -/
  | resized : Img → ℕ × ℕ → Img
  /-- `add_raw_label` drew a label on the image. -/
  | labeled : Img → LabelSpec → Img
deriving DecidableEq, Repr

/-- A byte stream handed between pipeline stages. -/
inductive Bytes where
  /-- Raw bytes from an external source (exiftool stdout). -/
  | raw : List UInt8 → Bytes
  /-- A `BytesIO` produced by `img.save(..., format="JPEG")`. -/
  | jpeg : Img → Bytes
deriving DecidableEq, Repr

/-- A PNG written by `thumb.save(out_path, format="PNG", pnginfo=metadata)`. -/
structure SavedPng where
  img : Img
  meta : List (String × String)
deriving DecidableEq, Repr

/-- A filesystem event of one pipeline run. -/
inductive Event where
  /-- `out_dir.mkdir(parents=True, exist_ok=True)`. -/
  | mkdirP : List String → Event
  /-- `thumb.save(out_path, format="PNG", pnginfo=metadata)`. -/
  | save : List String → SavedPng → Event
  /-- `subprocess.run(args, ...)`. -/
  | proc : List String → Event
  /-- `Image.open(image_path)` read the source file. -/
  | openedPath : List String → Event
  /-- `Image.open(io.BytesIO(bytes))` decoded in-memory bytes. -/
  | openedBytes : List UInt8 → Event
deriving DecidableEq, Repr

/-- Filesystem state: regular-file contents and directory existence. -/
structure FS where
  file : List String → Option SavedPng
  dir : List String → Bool

/-- Python's `Path.exists()` (true for files and directories alike). -/
def FS.existsAt (fs : FS) (p : List String) : Bool :=
  (fs.file p).isSome || fs.dir p

/-- Effect of one event on the filesystem.  `mkdirP` has `parents=True`
semantics: the directory and all its ancestors come into existence. -/
def applyEvent (fs : FS) : Event → FS
  | .mkdirP p => ⟨fs.file, fun q => fs.dir q || initSeg q p⟩
  | .save p c => ⟨fun q => if q = p then some c else fs.file q, fs.dir⟩
  | _ => fs

/-- Effect of a whole trace. -/
def applyTrace (fs : FS) (evs : List Event) : FS := evs.foldl applyEvent fs

/-- The successive contents written to path `q` by a trace. -/
def savesTo (evs : List Event) (q : List String) : List SavedPng :=
  evs.filterMap (fun e => match e with
    | .save p c => if p = q then some c else none
    | _ => none)

/-! ## The environment of external collaborators -/

/-- Result of `subprocess.run(..., check=False)`.  `stdout` is the binary
capture, `stdoutText` the `text=True` capture, `stderr` the diagnostic text. -/
structure ProcResult where
  returncode : ℤ
  stdout : List UInt8
  stdoutText : String
  stderr : String

/-- Deterministic oracle for everything outside the program: PIL, exiftool,
`stat`, and per-path failure injection for the filesystem calls. -/
structure Env where
  /-- `image_path.resolve().as_uri()`. -/
  resolveUri : List String → String
  /-- `hashlib.md5(uri.encode("utf-8")).hexdigest()`. -/
  md5hex : String → String
  /-- When `some e`, `Path.exists()` on this path raises `e`
  (e.g. `PermissionError` on the containing directory). -/
  existsErr : List String → Option String
  /-- `subprocess.run(args, check=False)`. -/
  run : List String → ProcResult
  /-- `Image.open` on raw external bytes; may fail (`UnidentifiedImageError`). -/
  decodeRaw : List UInt8 → Except String Img
  /-- `Image.open(image_path)` on a standard-format file; may fail. -/
  openImage : List String → Except String Img
  /-- `image_path.stat().st_mtime`; may fail. -/
  stMtime : List String → Except String ℚ
  /-- Current dimensions of an in-memory image. -/
  dimsOf : Img → ℕ × ℕ
  /-- `draw.textbbox(pos, text, font)` as `((left, top), (right, bottom))`,
  a function of position, text, font path and font size. -/
  textBBox : (ℤ × ℤ) → String → String → ℕ → (ℤ × ℤ) × (ℤ × ℤ)
  /-- When `some e`, `mkdir(parents=True, exist_ok=True)` on this path raises. -/
  mkdirErr : List String → Option String
  /-- When `some e`, `thumb.save` to this path raises (e.g. disk full). -/
  saveErr : List String → Option String
  /-- When `some e`, `ImageFont.truetype(font, size)` raises (missing font). -/
  fontErr : String → ℕ → Option String

/-- `Path.exists()` under the environment: either raises or reports `fs`. -/
def pathExists (env : Env) (fs : FS) (p : List String) : Except String Bool :=
  match env.existsErr p with
  | some e => .error e
  | none => .ok (fs.existsAt p)

/-- `Image.open(io.BytesIO(b))` for the byte streams of this pipeline: our own
JPEG re-encodings decode back to the image they encode. -/
def openBytesF (env : Env) : Bytes → Except String Img
  | .jpeg i => .ok i
  | .raw l => env.decodeRaw l

/-! ## `extract_cr3_preview` -/

/-- Arguments of the preview-extraction invocation (line 98). -/
def exiftoolArgs1 (tag : String) (p : List String) : List String :=
  ["exiftool", "-" ++ tag, "-b", pathStr p]

/-- Arguments of the orientation invocation (line 109). -/
def exiftoolArgs2 (p : List String) : List String :=
  ["exiftool", "-Orientation", "-s3", pathStr p]

/-- `rotate_map` from `app.py`. -/
def rotate_map : List (String × ℤ) :=
  [("Rotate 90 CW", -90), ("Rotate 270 CW", -270),
   ("Rotate 90 CCW", 90), ("Rotate 180", 180)]

/-- `rotate_map.get(orientation_str, 0)`. -/
def rotateMapGet (s : String) : ℤ := (rotate_map.lookup s).getD 0

/-- `extract_cr3_preview` (lines 94-131): run exiftool for the embedded
preview, fail hard on non-zero exit or empty output, read the orientation with
a second invocation, rotate if the orientation is recognised, re-encode as
JPEG into a `BytesIO`. -/
def extract_cr3_preview (env : Env) (image_path : List String) (tag : String) :
    List Event × Except String Bytes :=
  let result := env.run (exiftoolArgs1 tag image_path)
  if result.returncode ≠ 0 ∨ result.stdout = [] then
    ([.proc (exiftoolArgs1 tag image_path)],
     .error ("ExifTool failed on " ++ pathStr image_path ++ ":\n" ++ pyStrip result.stderr))
  else
    let orient := env.run (exiftoolArgs2 image_path)
    let orientation_str := pyStrip orient.stdoutText
    let rotation := rotateMapGet orientation_str
    let evs := [Event.proc (exiftoolArgs1 tag image_path),
                Event.proc (exiftoolArgs2 image_path),
                Event.openedBytes result.stdout]
    match env.decodeRaw result.stdout with
    | .error e => (evs, .error e)
    | .ok img0 =>
      let img := if rotation ≠ 0 then Img.rotated img0 rotation true else img0
      (evs, .ok (Bytes.jpeg img))

/-! ## `add_raw_label` -/

/-- `add_raw_label` (lines 69-91): load the configured font, measure the text
at the top-left corner, draw a black rectangle padded by `int(size * 0.5)`
around it, draw the text in white. -/
def add_raw_label (env : Env) (image : Img) (label : String) (text : String) :
    Except String Img :=
  let size := fontSizeOf label
  match env.fontErr FONT size with
  | some e => .error e
  | none =>
    let bbox := env.textBBox (0, 0) text FONT size
    let text_width := bbox.2.1 - bbox.1.1
    let text_height := bbox.2.2 - bbox.1.2
    let box_padding : ℤ := (size / 2 : ℕ)
    .ok (Img.labeled image
      { text := text
        font := FONT
        fontSize := size
        pos := (0, 0)
        rect := ((0 - box_padding, 0 - box_padding),
                 (text_width + box_padding, text_height + box_padding))
        fill := "black"
        textFill := "white" })

/-! ## `generate_thumbnails` -/

/-- The cache filename `f"{hash_hex}.png"` (lines 141-143). -/
def outFilename (env : Env) (p : List String) : String :=
  env.md5hex (env.resolveUri p) ++ ".png"

/-- The freshness loop (lines 146-153): check each tier path in order,
stopping at the first missing one.  Returns `all_exist`. -/
def checkAllExist (env : Env) (fs : FS) : List (List String) → Except String Bool
  | [] => .ok true
  | p :: rest =>
    match pathExists env fs p with
    | .error e => .error e
    | .ok true => checkAllExist env fs rest
    | .ok false => .ok false

/-- The PNG text metadata built at lines 166-169. -/
def metaOf (uri : String) (m : ℚ) : List (String × String) :=
  [("Thumb::URI", uri), ("Thumb::MTime", toString (pyInt m)),
   ("Software", "make-thumbnail")]

/-- The decode stage (lines 159-162): RAW files go through
`extract_cr3_preview`, standard files through `Image.open`. -/
def decodeStage (env : Env) (image_path : List String) :
    List Event × Except String Img :=
  if pyLower (pySuffix (lastComp image_path)) ∈ RAW_EXTENSIONS then
    match extract_cr3_preview env image_path "PreviewImage" with
    | (evs, .error e) => (evs, .error e)
    | (evs, .ok b) => (evs, openBytesF env b)
  else
    ([.openedPath image_path], env.openImage image_path)

/-- `thumb = img.copy(); thumb.thumbnail(size, Image.LANCZOS)` (lines 173-174):
the copy resized to the PIL thumbnail dimensions for the tier's box. -/
def resizedCopy (env : Env) (img : Img) (cfg : TierCfg) : Img :=
  Img.resized img
    (pilThumbnailSize (env.dimsOf img).1 (env.dimsOf img).2 cfg.size.1 cfg.size.2)

/-- One iteration of the tier loop (lines 171-184): resize a copy, make the
tier directory, save, and for supported extensions label and save again. -/
def renderTier (env : Env) (img : Img) (meta : List (String × String))
    (ext : String) (output_base : List String) (fn : String)
    (label : String) (cfg : TierCfg) : List Event × Option String :=
  let thumb := resizedCopy env img cfg
  let out_dir := output_base ++ [label]
  let out_path := output_base ++ [label, fn]
  match env.mkdirErr out_dir with
  | some e => ([], some e)
  | none =>
    match env.saveErr out_path with
    | some e => ([.mkdirP out_dir], some e)
    | none =>
      let ev1 := [Event.mkdirP out_dir, Event.save out_path ⟨thumb, meta⟩]
      if ext ∈ SUPPORTED_EXTENSIONS then
        match add_raw_label env thumb label ext with
        | .error e => (ev1, some e)
        | .ok thumb2 => (ev1 ++ [Event.save out_path ⟨thumb2, meta⟩], none)
      else (ev1, none)

/-- The whole tier loop; stops at the first raised exception. -/
def renderTiers (env : Env) (img : Img) (meta : List (String × String))
    (ext : String) (output_base : List String) (fn : String) :
    List (String × TierCfg) → List Event × Option String
  | [] => ([], none)
  | (label, cfg) :: rest =>
    match renderTier env img meta ext output_base fn label cfg with
    | (evs, some e) => (evs, some e)
    | (evs, none) =>
      let r := renderTiers env img meta ext output_base fn rest
      (evs ++ r.1, r.2)

/-- The body of the `try` block (lines 158-184): decode, orientation-correct,
stat, render all tiers.  Returns the events performed and the exception
message, if one was raised. -/
def tryBody (env : Env) (image_path output_base : List String)
    (uri fn : String) : List Event × Option String :=
  match decodeStage env image_path with
  | (evs, .error e) => (evs, some e)
  | (evs, .ok img0) =>
    let img := Img.transposed img0
    match env.stMtime image_path with
    | .error e => (evs, some e)
    | .ok m =>
      let meta := metaOf uri m
      let ext := pyLower (pySuffix (lastComp image_path))
      let r := renderTiers env img meta ext output_base fn THUMBNAIL_CONFIG
      (evs ++ r.1, r.2)

/-- `generate_thumbnails` (lines 134-188).  The result is `.error e` when an
exception escapes the function (the freshness check sits outside the `try`
block), `.ok none` on success or freshness skip, and `.ok (some msg)` when the
`except` clause caught an exception and returned `f"{image_path}: {e}"`. -/
def generate_thumbnails (env : Env) (fs : FS) (image_path output_base : List String)
    (overwrite : Bool) : Except String (Option String) × List Event :=
  let uri := env.resolveUri image_path
  let fn := env.md5hex uri ++ ".png"
  let tierPaths := THUMBNAIL_CONFIG.map (fun lc => output_base ++ [lc.1, fn])
  let check : Except String Bool :=
    if overwrite then .ok false else checkAllExist env fs tierPaths
  match check with
  | .error e => (.error e, [])
  | .ok true => (.ok none, [])
  | .ok false =>
    match tryBody env image_path output_base uri fn with
    | (evs, some e) => (.ok (some (pathStr image_path ++ ": " ++ e)), evs)
    | (evs, none) => (.ok none, evs)

/-! ## `collect_image_paths` and `main` -/

/-- A filesystem subtree for the path collector: a regular file, a directory
with children, or anything else (special device, broken symlink, ...). -/
inductive Entry where
  | file : String → Entry
  | dir : String → List Entry → Entry
  | other : String → Entry

/-- Name of an entry. -/
def entryName : Entry → String
  | .file n => n
  | .dir n _ => n
  | .other n => n

/-- Whether an entry is a regular file. -/
def isRegularFile : Entry → Bool
  | .file _ => true
  | _ => false

/-- `input_path.rglob("*")`: every descendant of the directory, of any kind,
as a path relative to the directory. -/
def rglobPaths : List Entry → List (List String)
  | [] => []
  | .file n :: es => [n] :: rglobPaths es
  | .other n :: es => [n] :: rglobPaths es
  | .dir n ch :: es => [n] :: ((rglobPaths ch).map (n :: ·) ++ rglobPaths es)

/-- `ResolvesIn x p e`: starting from entry `x`, the relative path `p`
(beginning with `x`'s own name) leads to the entry `e`. -/
inductive ResolvesIn : Entry → List String → Entry → Prop where
  | self : ∀ x, ResolvesIn x [entryName x] x
  | child : ∀ n ch p e x, x ∈ ch → ResolvesIn x p e →
      ResolvesIn (Entry.dir n ch) (n :: p) e

/-- `collect_image_paths` (lines 191-200).  The input is the entry at the
input path (`none` when nothing exists there); results are paths whose first
component is the input's name. -/
def collect_image_paths : Option Entry → Except String (List (List String))
  | some (.file n) => .ok (if suffOk n then [[n]] else [])
  | some (.dir n ch) =>
      .ok (((rglobPaths ch).map (n :: ·)).filter (fun p => suffOk (lastComp p)))
  | some (.other _) => .error "Input must be a file or directory."
  | none => .error "Input must be a file or directory."

/-- `process_images` (lines 203-221), modelled as a sequential fold over the
work items (one admissible completion order).  An exception escaping a work
item re-raises at `future.result()` and aborts the whole batch with `.error`;
caught per-file errors are collected. -/
def process_images (env : Env) (fs : FS) (paths : List (List String))
    (output_dir : List String) (overwrite : Bool) :
    Except String (List String) × FS :=
  match paths with
  | [] => (.ok [], fs)
  | p :: rest =>
    let r := generate_thumbnails env fs p output_dir overwrite
    let fs' := applyTrace fs r.2
    match r.1 with
    | .error e => (.error e, fs')
    | .ok none => process_images env fs' rest output_dir overwrite
    | .ok (some m) =>
      match process_images env fs' rest output_dir overwrite with
      | (.error e, fs'') => (.error e, fs'')
      | (.ok ms, fs'') => (.ok (m :: ms), fs'')

/-- Outcome of `main` (lines 224-251). -/
inductive MainResult where
  /-- `collect_image_paths` raised `ValueError`; logged, nothing dispatched. -/
  | invalidInput : String → MainResult
  /-- No supported files found; nothing dispatched. -/
  | noFiles : MainResult
  /-- The batch ran; per-file error messages collected. -/
  | completed : List String → MainResult
  /-- An exception escaped a work item and crashed `main`. -/
  | crashed : String → MainResult
deriving DecidableEq, Repr

/-- `main` (lines 224-251): collect, bail out on invalid input or an empty
work list, otherwise process the batch. -/
def main_model (env : Env) (fs : FS) (input : Option Entry)
    (output_dir : List String) (overwrite : Bool) : MainResult × FS :=
  match collect_image_paths input with
  | .error e => (.invalidInput e, fs)
  | .ok paths =>
    if paths = [] then (.noFiles, fs)
    else
      match process_images env fs paths output_dir overwrite with
      | (.error e, fs') => (.crashed e, fs')
      | (.ok errs, fs') => (.completed errs, fs')

/-! ## Bounds for the PIL thumbnail size computation (claim C4) -/

/-- Branch where the box is relatively wider than the image: the height is
pinned to `bh` and the width is a rounding of `bh * w / h`. -/
theorem thumbAuxWide (w h bw bh fl ce c : ℕ) (hh : 0 < h) (hw : 0 < w)
    (hbw : 0 < bw) (hbh : 0 < bh)
    (hfl : fl = bh * w / h) (hce : ce = (bh * w + h - 1) / h)
    (hc : c = fl ∨ c = ce)
    (hwide : bh * w ≤ bw * h) (hlt : bh < h) :
    max c 1 ≤ bw ∧ bh ≤ bh ∧ max c 1 ≤ w ∧ bh ≤ h ∧
      Nat.dist (max c 1 * h) (bh * w) ≤ max w h := by
  have e1 : h * fl + (bh * w) % h = bh * w := by rw [hfl]; exact Nat.div_add_mod _ _
  have e2 : (bh * w) % h < h := Nat.mod_lt _ hh
  have e3 : h * ce + (bh * w + h - 1) % h = bh * w + h - 1 := by
    rw [hce]; exact Nat.div_add_mod _ _
  have e4 : (bh * w + h - 1) % h < h := Nat.mod_lt _ hh
  have hn1 : 1 ≤ bh * w := Nat.mul_pos hbh hw
  have hnlt : bh * w < h * w := by
    have := Nat.mul_lt_mul_of_lt_of_le hlt (le_refl w) hw
    exact this
  have hflbw : fl < bw + 1 := by
    rw [hfl]
    refine (Nat.div_lt_iff_lt_mul hh).mpr ?_
    have hr : (bw + 1) * h = bw * h + h := by ring
    omega
  have hcebw : ce < bw + 1 := by
    rw [hce]
    refine (Nat.div_lt_iff_lt_mul hh).mpr ?_
    have hr : (bw + 1) * h = bw * h + h := by ring
    omega
  have hflw : fl < w + 1 := by
    rw [hfl]
    refine (Nat.div_lt_iff_lt_mul hh).mpr ?_
    have hr : (w + 1) * h = h * w + h := by ring
    omega
  have hcew : ce < w + 1 := by
    rw [hce]
    refine (Nat.div_lt_iff_lt_mul hh).mpr ?_
    have hr : (w + 1) * h = h * w + h := by ring
    omega
  refine ⟨?_, le_refl _, ?_, le_of_lt hlt, ?_⟩
  · rcases hc with rfl | rfl <;> omega
  · rcases hc with rfl | rfl <;> omega
  · have hd : ∀ d : ℕ, d = fl ∨ d = ce → Nat.dist (max d 1 * h) (bh * w) ≤ h := by
      intro d hdd
      rcases hdd with rfl | rfl
      · rcases Nat.eq_zero_or_pos d with h0 | h0
        · -- floor = 0: the exact value bh * w is below h, the clamp gives 1
          rw [h0] at e1
          have hmx : max 0 1 = 1 := rfl
          rw [h0, hmx, one_mul, Nat.dist]
          omega
        · rw [Nat.max_eq_left h0]
          have hcm : d * h = h * d := Nat.mul_comm _ _
          rw [Nat.dist]; omega
      · rcases Nat.eq_zero_or_pos d with h0 | h0
        · -- ceiling = 0 is impossible since bh * w ≥ 1
          rw [h0] at e3
          omega
        · rw [Nat.max_eq_left h0]
          have hcm : d * h = h * d := Nat.mul_comm _ _
          rw [Nat.dist]; omega
    exact le_trans (hd c hc) (le_max_right w h)

/-- Branch where the box is relatively taller than the image: the width is
pinned to `bw` and the height is a rounding of `bw * h / w`. -/
theorem thumbAuxTall (w h bw bh fl ce c : ℕ) (hh : 0 < h) (hw : 0 < w)
    (hbw : 0 < bw) (hbh : 0 < bh)
    (hfl : fl = bw * h / w) (hce : ce = (bw * h + w - 1) / w)
    (hc : c = fl ∨ c = ce)
    (htall : bw * h < bh * w) (hlt : bw < w) :
    bw ≤ bw ∧ max c 1 ≤ bh ∧ bw ≤ w ∧ max c 1 ≤ h ∧
      Nat.dist (bw * h) (max c 1 * w) ≤ max w h := by
  have e1 : w * fl + (bw * h) % w = bw * h := by rw [hfl]; exact Nat.div_add_mod _ _
  have e2 : (bw * h) % w < w := Nat.mod_lt _ hw
  have e3 : w * ce + (bw * h + w - 1) % w = bw * h + w - 1 := by
    rw [hce]; exact Nat.div_add_mod _ _
  have e4 : (bw * h + w - 1) % w < w := Nat.mod_lt _ hw
  have hn1 : 1 ≤ bw * h := Nat.mul_pos hbw hh
  have hnlt : bw * h < w * h := by
    have := Nat.mul_lt_mul_of_lt_of_le hlt (le_refl h) hh
    exact this
  have hflbh : fl < bh + 1 := by
    rw [hfl]
    refine (Nat.div_lt_iff_lt_mul hw).mpr ?_
    have hr : (bh + 1) * w = bh * w + w := by ring
    omega
  have hcebh : ce < bh + 1 := by
    rw [hce]
    refine (Nat.div_lt_iff_lt_mul hw).mpr ?_
    have hr : (bh + 1) * w = bh * w + w := by ring
    omega
  have hflh : fl < h + 1 := by
    rw [hfl]
    refine (Nat.div_lt_iff_lt_mul hw).mpr ?_
    have hr : (h + 1) * w = w * h + w := by ring
    omega
  have hceh : ce < h + 1 := by
    rw [hce]
    refine (Nat.div_lt_iff_lt_mul hw).mpr ?_
    have hr : (h + 1) * w = w * h + w := by ring
    omega
  refine ⟨le_refl _, ?_, le_of_lt hlt, ?_, ?_⟩
  · rcases hc with rfl | rfl <;> omega
  · rcases hc with rfl | rfl <;> omega
  · have hd : ∀ d : ℕ, d = fl ∨ d = ce → Nat.dist (bw * h) (max d 1 * w) ≤ w := by
      intro d hdd
      rcases hdd with rfl | rfl
      · rcases Nat.eq_zero_or_pos d with h0 | h0
        · -- floor = 0: the exact value bw * h is below w, the clamp gives 1
          rw [h0] at e1
          have hmx : max 0 1 = 1 := rfl
          rw [h0, hmx, one_mul, Nat.dist]
          omega
        · rw [Nat.max_eq_left h0]
          have hcm : d * w = w * d := Nat.mul_comm _ _
          rw [Nat.dist]; omega
      · rcases Nat.eq_zero_or_pos d with h0 | h0
        · rw [h0] at e3
          omega
        · rw [Nat.max_eq_left h0]
          have hcm : d * w = w * d := Nat.mul_comm _ _
          rw [Nat.dist]; omega
    exact le_trans (hd c hc) (le_max_left w h)

/-- The PIL thumbnail size computation fits the bounding box, never upscales,
and keeps the aspect ratio within one unit of rounding
(`|newW * h - newH * w| ≤ max w h`, i.e. `|newW / newH - w / h| ≤ 1 / newH`
after division). -/
theorem pilThumbnailSize_spec (w h bw bh : ℕ) (hw : 0 < w) (hh : 0 < h)
    (hbw : 0 < bw) (hbh : 0 < bh) :
    (pilThumbnailSize w h bw bh).1 ≤ bw ∧ (pilThumbnailSize w h bw bh).2 ≤ bh ∧
    (pilThumbnailSize w h bw bh).1 ≤ w ∧ (pilThumbnailSize w h bw bh).2 ≤ h ∧
    Nat.dist ((pilThumbnailSize w h bw bh).1 * h) ((pilThumbnailSize w h bw bh).2 * w)
      ≤ max w h := by
  by_cases hfit : w ≤ bw ∧ h ≤ bh
  · simp only [pilThumbnailSize, if_pos hfit]
    refine ⟨hfit.1, hfit.2, le_refl _, le_refl _, ?_⟩
    rw [Nat.mul_comm w h, Nat.dist_self]
    exact Nat.zero_le _
  · by_cases hwide : bh * w ≤ bw * h
    · have hlt : bh < h := by
        by_contra hle
        push_neg at hle
        have h1 : h * w ≤ bh * w := Nat.mul_le_mul_right w hle
        have h2 : w * h ≤ bw * h := by
          calc w * h = h * w := Nat.mul_comm _ _
          _ ≤ bh * w := h1
          _ ≤ bw * h := hwide
        have h3 : w ≤ bw := Nat.le_of_mul_le_mul_right h2 hh
        have h4 : h ≤ bh := by
          by_contra hhb
          push_neg at hhb
          exact absurd hle (not_le.mpr hhb)
        exact hfit ⟨h3, h4⟩
      simp only [pilThumbnailSize, if_neg hfit, if_pos hwide]
      split
      · exact thumbAuxWide w h bw bh _ _ _ hh hw hbw hbh rfl rfl (Or.inl rfl) hwide hlt
      · exact thumbAuxWide w h bw bh _ _ _ hh hw hbw hbh rfl rfl (Or.inr rfl) hwide hlt
    · push_neg at hwide
      have hlt : bw < w := by
        by_contra hle
        push_neg at hle
        have h1 : w * h ≤ bw * h := Nat.mul_le_mul_right h hle
        have h2 : h * w ≤ bh * w := by
          calc h * w = w * h := Nat.mul_comm _ _
          _ ≤ bw * h := h1
          _ ≤ bh * w := le_of_lt hwide
        have h3 : h ≤ bh := Nat.le_of_mul_le_mul_right h2 hw
        exact hfit ⟨hle, h3⟩
      simp only [pilThumbnailSize, if_neg hfit, if_neg (not_le.mpr hwide)]
      split
      · exact thumbAuxTall w h bw bh _ _ _ hh hw hbw hbh rfl rfl (Or.inl rfl) hwide hlt
      · split
        · exact thumbAuxTall w h bw bh _ _ _ hh hw hbw hbh rfl rfl (Or.inl rfl) hwide hlt
        · exact thumbAuxTall w h bw bh _ _ _ hh hw hbw hbh rfl rfl (Or.inr rfl) hwide hlt

/-- Claim C4: for every decoded image and configured tier, the rendered
thumbnail dimensions fit the tier's bounding box, are never upscaled beyond
the original dimensions, and keep the source aspect ratio within rounding
(`|newW * h - newH * w| ≤ max w h`). -/
theorem claim_C4 (lc : String × TierCfg) (hlc : lc ∈ THUMBNAIL_CONFIG)
    (w h : ℕ) (hw : 0 < w) (hh : 0 < h) :
    (pilThumbnailSize w h lc.2.size.1 lc.2.size.2).1 ≤ lc.2.size.1 ∧
    (pilThumbnailSize w h lc.2.size.1 lc.2.size.2).2 ≤ lc.2.size.2 ∧
    (pilThumbnailSize w h lc.2.size.1 lc.2.size.2).1 ≤ w ∧
    (pilThumbnailSize w h lc.2.size.1 lc.2.size.2).2 ≤ h ∧
    Nat.dist ((pilThumbnailSize w h lc.2.size.1 lc.2.size.2).1 * h)
      ((pilThumbnailSize w h lc.2.size.1 lc.2.size.2).2 * w) ≤ max w h := by
  fin_cases hlc <;>
    exact pilThumbnailSize_spec w h _ _ hw hh (by norm_num) (by norm_num)

/-- Witness for claim C4 at a 1000 × 600 source and the `normal` tier. -/
theorem claim_C4_witness :
    ("normal", (⟨(128, 128), 20⟩ : TierCfg)) ∈ THUMBNAIL_CONFIG ∧ 0 < 1000 ∧ 0 < 600 ∧
    ((pilThumbnailSize 1000 600 128 128).1 ≤ 128 ∧
     (pilThumbnailSize 1000 600 128 128).2 ≤ 128 ∧
     (pilThumbnailSize 1000 600 128 128).1 ≤ 1000 ∧
     (pilThumbnailSize 1000 600 128 128).2 ≤ 600 ∧
     Nat.dist ((pilThumbnailSize 1000 600 128 128).1 * 600)
       ((pilThumbnailSize 1000 600 128 128).2 * 1000) ≤ max 1000 600) := by
  have hm : ("normal", (⟨(128, 128), 20⟩ : TierCfg)) ∈ THUMBNAIL_CONFIG := by decide
  exact ⟨hm, by norm_num, by norm_num,
    claim_C4 ("normal", ⟨(128, 128), 20⟩) hm 1000 600 (by norm_num) (by norm_num)⟩

/-! ## Claims about `extract_cr3_preview` (C6, C7) -/

/-- `Except.isOk`-style test, local to this development. -/
def isOkE {α : Type} : Except String α → Bool
  | .ok _ => true
  | .error _ => false

/-- Claim C7: the orientation string maps to degrees exactly per `rotate_map`,
anything else (or absent) maps to no rotation, and a nonzero rotation is
applied with `expand=True` before the preview is returned. -/
theorem claim_C7 :
    (rotateMapGet "Rotate 90 CW" = -90 ∧ rotateMapGet "Rotate 270 CW" = -270 ∧
     rotateMapGet "Rotate 90 CCW" = 90 ∧ rotateMapGet "Rotate 180" = 180) ∧
    (∀ s : String, s ≠ "Rotate 90 CW" → s ≠ "Rotate 270 CW" → s ≠ "Rotate 90 CCW" →
       s ≠ "Rotate 180" → rotateMapGet s = 0) ∧
    (∀ (env : Env) (p : List String) (tag : String) (b : Bytes),
       (extract_cr3_preview env p tag).2 = .ok b →
       ∃ img0, env.decodeRaw (env.run (exiftoolArgs1 tag p)).stdout = .ok img0 ∧
         b = Bytes.jpeg
           (if rotateMapGet (pyStrip (env.run (exiftoolArgs2 p)).stdoutText) = 0 then img0
            else Img.rotated img0
              (rotateMapGet (pyStrip (env.run (exiftoolArgs2 p)).stdoutText)) true)) := by
  refine ⟨⟨by decide, by decide, by decide, by decide⟩, ?_, ?_⟩
  · intro s h1 h2 h3 h4
    have e1 : (s == "Rotate 90 CW") = false := beq_eq_false_iff_ne.mpr h1
    have e2 : (s == "Rotate 270 CW") = false := beq_eq_false_iff_ne.mpr h2
    have e3 : (s == "Rotate 90 CCW") = false := beq_eq_false_iff_ne.mpr h3
    have e4 : (s == "Rotate 180") = false := beq_eq_false_iff_ne.mpr h4
    simp [rotateMapGet, rotate_map, List.lookup, e1, e2, e3, e4]
  · intro env p tag b hb
    simp only [extract_cr3_preview] at hb
    split at hb
    · simp at hb
    · split at hb
      · simp at hb
      · next img0 heq =>
        simp only at hb
        refine ⟨img0, heq, ?_⟩
        have hb' := hb.symm
        injection hb' with hb''
        rw [hb'']
        by_cases h0 : rotateMapGet (pyStrip (env.run (exiftoolArgs2 p)).stdoutText) = 0
        · simp [h0]
        · simp [h0]

/-- Claim C6 (amended): hard failure with the tool's stderr in the message iff
the first invocation exits non-zero or yields empty output; additionally the
extraction fails when the extracted bytes do not decode; the orientation
invocation's result never makes the extraction fail. -/
theorem claim_C6_amended (env : Env) (p : List String) (tag : String) :
    ((env.run (exiftoolArgs1 tag p)).returncode ≠ 0 ∨
        (env.run (exiftoolArgs1 tag p)).stdout = [] →
      (extract_cr3_preview env p tag).2 =
        .error ("ExifTool failed on " ++ pathStr p ++ ":\n" ++
          pyStrip (env.run (exiftoolArgs1 tag p)).stderr)) ∧
    (isOkE (extract_cr3_preview env p tag).2 = false ↔
      ((env.run (exiftoolArgs1 tag p)).returncode ≠ 0 ∨
       (env.run (exiftoolArgs1 tag p)).stdout = [] ∨
       isOkE (env.decodeRaw (env.run (exiftoolArgs1 tag p)).stdout) = false)) := by
  constructor
  · intro h
    simp only [extract_cr3_preview]
    rw [if_pos h]
  · by_cases h : (env.run (exiftoolArgs1 tag p)).returncode ≠ 0 ∨
        (env.run (exiftoolArgs1 tag p)).stdout = []
    · simp only [extract_cr3_preview]
      rw [if_pos h]
      simp only [isOkE]
      tauto
    · simp only [extract_cr3_preview]
      rw [if_neg h]
      push_neg at h
      rcases hd : env.decodeRaw (env.run (exiftoolArgs1 tag p)).stdout with e | img0 <;>
        simp [hd, isOkE, h.1, h.2]

/-- A fully-succeeding environment, used to evaluate the pipeline on concrete
inputs in witnesses. -/
def envNice : Env where
  resolveUri := fun p => "file:///" ++ pathStr p
  md5hex := fun s => "h" ++ toString s.length
  existsErr := fun _ => none
  run := fun _ => ⟨0, [7], "", ""⟩
  decodeRaw := fun l => .ok (Img.fromRaw l)
  openImage := fun p => .ok (Img.opened p)
  stMtime := fun _ => .ok 5
  dimsOf := fun _ => (1000, 600)
  textBBox := fun _ _ _ _ => ((0, 0), (30, 12))
  mkdirErr := fun _ => none
  saveErr := fun _ => none
  fontErr := fun _ _ => none

/-- Environment where exiftool succeeds with output that PIL cannot decode. -/
def envC6bad : Env :=
  { envNice with
    run := fun _ => ⟨0, [1], "", ""⟩
    decodeRaw := fun _ => .error "cannot identify image file" }

/-- Counterexample to claim C6 as stated: the first exiftool invocation exits
zero with non-empty output, yet preview extraction still raises (the extracted
bytes are not a decodable image), so "raises iff non-zero exit or empty
output" is false. -/
theorem claim_C6_counterexample :
    (envC6bad.run (exiftoolArgs1 "PreviewImage" ["x.cr3"])).returncode = 0 ∧
    (envC6bad.run (exiftoolArgs1 "PreviewImage" ["x.cr3"])).stdout ≠ [] ∧
    isOkE (extract_cr3_preview envC6bad ["x.cr3"] "PreviewImage").2 = false := by
  refine ⟨rfl, by decide, by rfl⟩

/-- Environment where the first exiftool invocation fails. -/
def envC6fail : Env :=
  { envNice with run := fun _ => ⟨1, [], "", " boom "⟩ }

/-- Witness for claim C6 (amended) at a failing first invocation. -/
theorem claim_C6_amended_witness :
    ((envC6fail.run (exiftoolArgs1 "PreviewImage" ["x.cr3"])).returncode ≠ 0 ∨
     (envC6fail.run (exiftoolArgs1 "PreviewImage" ["x.cr3"])).stdout = []) ∧
    (extract_cr3_preview envC6fail ["x.cr3"] "PreviewImage").2 =
      .error ("ExifTool failed on " ++ pathStr ["x.cr3"] ++ ":\n" ++
        pyStrip (envC6fail.run (exiftoolArgs1 "PreviewImage" ["x.cr3"])).stderr) := by
  have h1 : (envC6fail.run (exiftoolArgs1 "PreviewImage" ["x.cr3"])).returncode ≠ 0 ∨
      (envC6fail.run (exiftoolArgs1 "PreviewImage" ["x.cr3"])).stdout = [] :=
    Or.inl (by decide)
  exact ⟨h1, (claim_C6_amended envC6fail ["x.cr3"] "PreviewImage").1 h1⟩

/-- Environment whose orientation invocation reports `Rotate 90 CW`. -/
def envRot : Env :=
  { envNice with
    run := fun args =>
      if args = exiftoolArgs2 ["y.cr3"] then ⟨0, [], "Rotate 90 CW\n", ""⟩
      else ⟨0, [7], "", ""⟩ }

/-- Witness for claim C7: a preview with orientation `Rotate 90 CW` comes back
rotated by -90 degrees with the canvas expanded. -/
theorem claim_C7_witness :
    (extract_cr3_preview envRot ["y.cr3"] "PreviewImage").2 =
      .ok (Bytes.jpeg (Img.rotated (Img.fromRaw [7]) (-90) true)) ∧
    (∃ img0,
      envRot.decodeRaw (envRot.run (exiftoolArgs1 "PreviewImage" ["y.cr3"])).stdout =
        .ok img0 ∧
      Bytes.jpeg (Img.rotated (Img.fromRaw [7]) (-90) true) = Bytes.jpeg
        (if rotateMapGet (pyStrip (envRot.run (exiftoolArgs2 ["y.cr3"])).stdoutText) = 0
         then img0
         else Img.rotated img0
           (rotateMapGet (pyStrip (envRot.run (exiftoolArgs2 ["y.cr3"])).stdoutText)) true)) := by
  have hb : (extract_cr3_preview envRot ["y.cr3"] "PreviewImage").2 =
      .ok (Bytes.jpeg (Img.rotated (Img.fromRaw [7]) (-90) true)) := by rfl
  exact ⟨hb, claim_C7.2.2 envRot ["y.cr3"] "PreviewImage" _ hb⟩

/-! ## Claims about `collect_image_paths` (C3) -/

/-- Inversion for resolution under a file entry. -/
theorem resolvesIn_file {n : String} {q : List String} {e : Entry} :
    ResolvesIn (.file n) q e ↔ q = [n] ∧ e = .file n := by
  constructor
  · intro h
    cases h with
    | self _ => exact ⟨rfl, rfl⟩
  · rintro ⟨rfl, rfl⟩
    exact ResolvesIn.self _

/-- Inversion for resolution under a non-file, non-directory entry. -/
theorem resolvesIn_other {n : String} {q : List String} {e : Entry} :
    ResolvesIn (.other n) q e ↔ q = [n] ∧ e = .other n := by
  constructor
  · intro h
    cases h with
    | self _ => exact ⟨rfl, rfl⟩
  · rintro ⟨rfl, rfl⟩
    exact ResolvesIn.self _

/-- Inversion for resolution under a directory entry. -/
theorem resolvesIn_dir {n : String} {ch : List Entry} {q : List String} {e : Entry} :
    ResolvesIn (.dir n ch) q e ↔
      (q = [n] ∧ e = .dir n ch) ∨ ∃ p, q = n :: p ∧ ∃ x ∈ ch, ResolvesIn x p e := by
  constructor
  · intro h
    cases h with
    | self _ => exact Or.inl ⟨rfl, rfl⟩
    | child n ch p e x hx hr => exact Or.inr ⟨p, rfl, x, hx, hr⟩
  · rintro (⟨rfl, rfl⟩ | ⟨p, rfl, x, hx, hr⟩)
    · exact ResolvesIn.self _
    · exact ResolvesIn.child _ _ _ _ _ hx hr

/-- A path is produced by `rglob` exactly when it resolves to some entry of
the tree. -/
theorem mem_rglobPaths (es : List Entry) : ∀ q : List String,
    (q ∈ rglobPaths es ↔ ∃ x ∈ es, ∃ e, ResolvesIn x q e) := by
  induction es using rglobPaths.induct with
  | case1 =>
    intro q
    simp [rglobPaths]
  | case2 n es ih =>
    intro q
    simp only [rglobPaths, List.mem_cons, ih, resolvesIn_file]
    constructor
    · rintro (rfl | ⟨x, hx, e, hr⟩)
      · exact ⟨.file n, Or.inl rfl, .file n, ResolvesIn.self _⟩
      · exact ⟨x, Or.inr hx, e, hr⟩
    · rintro ⟨x, rfl | hx, e, hr⟩
      · rw [resolvesIn_file] at hr
        exact Or.inl hr.1
      · exact Or.inr ⟨x, hx, e, hr⟩
  | case3 n es ih =>
    intro q
    simp only [rglobPaths, List.mem_cons, ih]
    constructor
    · rintro (rfl | ⟨x, hx, e, hr⟩)
      · exact ⟨.other n, Or.inl rfl, .other n, ResolvesIn.self _⟩
      · exact ⟨x, Or.inr hx, e, hr⟩
    · rintro ⟨x, rfl | hx, e, hr⟩
      · rw [resolvesIn_other] at hr
        exact Or.inl hr.1
      · exact Or.inr ⟨x, hx, e, hr⟩
  | case4 n ch es ihch ihes =>
    intro q
    simp only [rglobPaths, List.mem_cons, List.mem_append, List.mem_map]
    constructor
    · rintro (rfl | ⟨⟨p, hp, rfl⟩ | hq⟩)
      · exact ⟨.dir n ch, Or.inl rfl, .dir n ch, ResolvesIn.self _⟩
      · rcases (ihch p).mp hp with ⟨x, hx, e, hr⟩
        exact ⟨.dir n ch, Or.inl rfl, e, ResolvesIn.child _ _ _ _ _ hx hr⟩
      · rcases (ihes q).mp hq with ⟨x, hx, e, hr⟩
        exact ⟨x, Or.inr hx, e, hr⟩
    · rintro ⟨x, rfl | hx, e, hr⟩
      · rw [resolvesIn_dir] at hr
        rcases hr with ⟨rfl, _⟩ | ⟨p, rfl, x', hx', hr'⟩
        · exact Or.inl rfl
        · exact Or.inr (Or.inl ⟨p, (ihch p).mpr ⟨x', hx', e, hr'⟩, rfl⟩)
      · exact Or.inr (Or.inr ((ihes q).mpr ⟨x, hx, e, hr⟩))

/-- Claim C3 (amended): a regular-file input yields a singleton or empty list
by supported extension; a directory input yields exactly the descendant
entries *of any kind* (the `rglob` result is filtered only by extension, not
by `is_file`) whose lowercase extension is supported; any other input fails
with `ValueError("Input must be a file or directory.")`, on which `main`
dispatches no work. -/
theorem claim_C3_amended :
    (∀ n : String, suffOk n = true → collect_image_paths (some (.file n)) = .ok [[n]]) ∧
    (∀ n : String, suffOk n = false → collect_image_paths (some (.file n)) = .ok []) ∧
    (∀ (n : String) (ch : List Entry), ∃ l,
      collect_image_paths (some (.dir n ch)) = .ok l ∧
      ∀ q : List String, q ∈ l ↔
        ∃ p, q = n :: p ∧ (∃ x ∈ ch, ∃ e, ResolvesIn x p e) ∧
          suffOk (lastComp q) = true) ∧
    (∀ n : String, collect_image_paths (some (.other n)) =
      .error "Input must be a file or directory.") ∧
    (collect_image_paths none = .error "Input must be a file or directory.") ∧
    (∀ (env : Env) (fs : FS) (n : String) (out : List String) (ow : Bool),
      main_model env fs (some (.other n)) out ow =
        (.invalidInput "Input must be a file or directory.", fs)) := by
  refine ⟨?_, ?_, ?_, ?_, rfl, ?_⟩
  · intro n h
    simp [collect_image_paths, h]
  · intro n h
    simp [collect_image_paths, h]
  · intro n ch
    refine ⟨_, rfl, ?_⟩
    intro q
    constructor
    · intro hq
      rcases List.mem_filter.mp hq with ⟨hm, hs⟩
      rcases List.mem_map.mp hm with ⟨p, hp, rfl⟩
      exact ⟨p, rfl, (mem_rglobPaths ch p).mp hp, hs⟩
    · rintro ⟨p, rfl, hres, hs⟩
      exact List.mem_filter.mpr
        ⟨List.mem_map.mpr ⟨p, (mem_rglobPaths ch p).mpr hres, rfl⟩, hs⟩
  · intro n
    rfl
  · intro env fs n out ow
    rfl

/-- Counterexample to claim C3 as stated: a *directory* named `a.jpg` below
the input directory is returned by `collect_image_paths` even though it is not
a regular file, so the result is not "exactly the regular files beneath the
input". -/
theorem claim_C3_counterexample :
    collect_image_paths (some (.dir "d" [.dir "a.jpg" []])) = .ok [["d", "a.jpg"]] ∧
    (∀ e : Entry, ResolvesIn (.dir "a.jpg" []) ["a.jpg"] e → isRegularFile e = false) := by
  have hr : rglobPaths [Entry.dir "a.jpg" []] = [["a.jpg"]] := by
    simp [rglobPaths]
  refine ⟨by simp only [collect_image_paths, hr]; rfl, ?_⟩
  intro e h
  cases h with
  | self _ => rfl
  | child n ch p e x hx hr => exact absurd hx (List.not_mem_nil _)

/-- Witness for claim C3 (amended) on concrete file inputs. -/
theorem claim_C3_amended_witness :
    suffOk "a.jpg" = true ∧
    collect_image_paths (some (.file "a.jpg")) = .ok [["a.jpg"]] ∧
    suffOk "notes.txt" = false ∧
    collect_image_paths (some (.file "notes.txt")) = .ok [] := by
  have h1 : suffOk "a.jpg" = true := by rfl
  have h2 : suffOk "notes.txt" = false := by rfl
  exact ⟨h1, claim_C3_amended.1 "a.jpg" h1, h2, claim_C3_amended.2.1 "notes.txt" h2⟩

/-! ## Freshness-check lemmas -/

/-- If no existence check raises and every tier file exists, the freshness
loop reports `all_exist`. -/
theorem checkAllExist_true_of (env : Env) (fs : FS) (ps : List (List String))
    (he : ∀ p ∈ ps, env.existsErr p = none)
    (hx : ∀ p ∈ ps, fs.existsAt p = true) :
    checkAllExist env fs ps = .ok true := by
  induction ps with
  | nil => rfl
  | cons p ps ih =>
    simp only [checkAllExist, pathExists, he p (List.mem_cons_self _ _),
      hx p (List.mem_cons_self _ _)]
    exact ih (fun q hq => he q (List.mem_cons_of_mem _ hq))
      (fun q hq => hx q (List.mem_cons_of_mem _ hq))

/-- If the freshness loop reports `all_exist`, every checked file exists. -/
theorem exists_of_checkAllExist_true (env : Env) (fs : FS) :
    ∀ ps : List (List String), checkAllExist env fs ps = .ok true →
      ∀ p ∈ ps, fs.existsAt p = true := by
  intro ps
  induction ps with
  | nil =>
    intro _ p hp
    exact absurd hp (List.not_mem_nil _)
  | cons p ps ih =>
    intro h q hq
    simp only [checkAllExist] at h
    rcases hpe : pathExists env fs p with e | b
    · rw [hpe] at h
      exact absurd h (by simp)
    · rw [hpe] at h
      cases b with
      | false => exact absurd h (by simp)
      | true =>
        rcases List.mem_cons.mp hq with rfl | hq'
        · unfold pathExists at hpe
          rcases hee : env.existsErr q with _ | e
          · rw [hee] at hpe
            simpa using hpe
          · rw [hee] at hpe
            exact absurd hpe (by simp)
        · exact ih h q hq'

/-- If the freshness loop reports a missing tier, some checked file is
missing. -/
theorem missing_of_checkAllExist_false (env : Env) (fs : FS) :
    ∀ ps : List (List String), checkAllExist env fs ps = .ok false →
      ∃ p ∈ ps, fs.existsAt p = false := by
  intro ps
  induction ps with
  | nil =>
    intro h
    exact absurd h (by simp [checkAllExist])
  | cons p ps ih =>
    intro h
    simp only [checkAllExist] at h
    rcases hpe : pathExists env fs p with e | b
    · rw [hpe] at h
      exact absurd h (by simp)
    · rw [hpe] at h
      cases b with
      | false =>
        unfold pathExists at hpe
        rcases hee : env.existsErr p with _ | e
        · rw [hee] at hpe
          exact ⟨p, List.mem_cons_self _ _, by simpa using hpe⟩
        · rw [hee] at hpe
          exact absurd hpe (by simp)
      | true =>
        rcases ih h with ⟨q, hq, hqe⟩
        exact ⟨q, List.mem_cons_of_mem _ hq, hqe⟩

/-- When no existence check raises, the freshness loop never raises. -/
theorem checkAllExist_isOk (env : Env) (fs : FS)
    (he : ∀ p, env.existsErr p = none) :
    ∀ ps : List (List String), ∃ b, checkAllExist env fs ps = .ok b := by
  intro ps
  induction ps with
  | nil => exact ⟨true, rfl⟩
  | cons p ps ih =>
    simp only [checkAllExist, pathExists, he p]
    cases hx : fs.existsAt p with
    | false => exact ⟨false, rfl⟩
    | true => exact ih

/-! ## Trace application lemmas -/

/-- One event preserves existence. -/
theorem existsAt_applyEvent_mono (fs : FS) (e : Event) (q : List String)
    (h : fs.existsAt q = true) : (applyEvent fs e).existsAt q = true := by
  cases e with
  | mkdirP p =>
    simp only [applyEvent, FS.existsAt, Bool.or_eq_true] at h ⊢
    rcases h with h | h
    · exact Or.inl h
    · exact Or.inr (Or.inl h)
  | save p c =>
    simp only [applyEvent, FS.existsAt, Bool.or_eq_true] at h ⊢
    by_cases hq : q = p
    · simp [hq]
    · simp only [if_neg hq]
      exact h
  | proc a => exact h
  | openedPath a => exact h
  | openedBytes a => exact h

/-- A trace preserves existence. -/
theorem existsAt_applyTrace_mono (evs : List Event) :
    ∀ (fs : FS) (q : List String), fs.existsAt q = true →
      (applyTrace fs evs).existsAt q = true := by
  induction evs with
  | nil => intro fs q h; exact h
  | cons e evs ih =>
    intro fs q h
    exact ih (applyEvent fs e) q (existsAt_applyEvent_mono fs e q h)

/-- One event preserves the presence of a regular file. -/
theorem file_isSome_applyEvent_mono (fs : FS) (e : Event) (q : List String)
    (h : (fs.file q).isSome = true) : ((applyEvent fs e).file q).isSome = true := by
  cases e with
  | mkdirP p => exact h
  | save p c =>
    simp only [applyEvent]
    by_cases hq : q = p
    · simp [hq]
    · simp only [if_neg hq]
      exact h
  | proc a => exact h
  | openedPath a => exact h
  | openedBytes a => exact h

/-- A trace preserves the presence of a regular file. -/
theorem file_isSome_applyTrace_mono (evs : List Event) :
    ∀ (fs : FS) (q : List String), (fs.file q).isSome = true →
      ((applyTrace fs evs).file q).isSome = true := by
  induction evs with
  | nil => intro fs q h; exact h
  | cons e evs ih =>
    intro fs q h
    exact ih (applyEvent fs e) q (file_isSome_applyEvent_mono fs e q h)

/-- After a trace containing a save to `q`, a regular file is present at `q`. -/
theorem file_isSome_applyTrace_of_save (evs : List Event) :
    ∀ (fs : FS) (q : List String) (sp : SavedPng), Event.save q sp ∈ evs →
      ((applyTrace fs evs).file q).isSome = true := by
  induction evs with
  | nil =>
    intro fs q sp h
    exact absurd h (List.not_mem_nil _)
  | cons e evs ih =>
    intro fs q sp h
    rcases List.mem_cons.mp h with rfl | h'
    · exact file_isSome_applyTrace_mono evs (applyEvent fs (Event.save q sp)) q
        (by simp [applyEvent])
    · exact ih (applyEvent fs e) q sp h'

/-- A file entry changed by a trace was the target of some save event. -/
theorem applyTrace_file_frame (evs : List Event) :
    ∀ (fs : FS) (q : List String), (applyTrace fs evs).file q ≠ fs.file q →
      ∃ sp, Event.save q sp ∈ evs := by
  induction evs with
  | nil =>
    intro fs q h
    exact absurd rfl h
  | cons e evs ih =>
    intro fs q h
    by_cases hc : (applyEvent fs e).file q = fs.file q
    · have h' : (applyTrace (applyEvent fs e) evs).file q ≠ (applyEvent fs e).file q := by
        rw [hc]
        exact h
      rcases ih (applyEvent fs e) q h' with ⟨sp, hsp⟩
      exact ⟨sp, List.mem_cons_of_mem _ hsp⟩
    · cases e with
      | mkdirP p => exact absurd rfl hc
      | save p c =>
        by_cases hq : q = p
        · subst hq
          exact ⟨c, by simp⟩
        · simp [applyEvent, if_neg hq] at hc
      | proc a => exact absurd rfl hc
      | openedPath a => exact absurd rfl hc
      | openedBytes a => exact absurd rfl hc

/-- A directory entry changed by a trace lies on the ancestor chain of some
`mkdir(parents=True)` event of the trace. -/
theorem applyTrace_dir_frame (evs : List Event) :
    ∀ (fs : FS) (q : List String), (applyTrace fs evs).dir q ≠ fs.dir q →
      ∃ d, Event.mkdirP d ∈ evs ∧ initSeg q d = true := by
  induction evs with
  | nil =>
    intro fs q h
    exact absurd rfl h
  | cons e evs ih =>
    intro fs q h
    by_cases hc : (applyEvent fs e).dir q = fs.dir q
    · have h' : (applyTrace (applyEvent fs e) evs).dir q ≠ (applyEvent fs e).dir q := by
        rw [hc]
        exact h
      rcases ih (applyEvent fs e) q h' with ⟨d, hd, hseg⟩
      exact ⟨d, List.mem_cons_of_mem _ hd, hseg⟩
    · cases e with
      | mkdirP p =>
        simp only [applyEvent] at hc
        by_cases hseg : initSeg q p = true
        · exact ⟨p, List.mem_cons_self _ _, hseg⟩
        · rw [Bool.not_eq_true] at hseg
          rw [hseg, Bool.or_false] at hc
          exact absurd rfl hc
      | save p c => exact absurd rfl hc
      | proc a => exact absurd rfl hc
      | openedPath a => exact absurd rfl hc
      | openedBytes a => exact absurd rfl hc

/-- `getLast?` of a cons through `Option.or`. -/
theorem getLast?_cons_or {α : Type} (a : α) (l : List α) :
    (a :: l).getLast? = l.getLast?.or (some a) := by
  induction l generalizing a with
  | nil => rfl
  | cons b l ih =>
    rw [List.getLast?_cons_cons, ih b]
    have hne : (b :: l) ≠ [] := by simp
    rcases Option.isSome_iff_exists.mp (List.getLast?_isSome.mpr hne) with ⟨z, hz⟩
    rw [ih b] at hz
    rw [hz]
    rfl

/-- The file contents after a trace: the last save to the path wins, else the
original entry is kept. -/
theorem applyTrace_file_eq (evs : List Event) :
    ∀ (fs : FS) (q : List String),
      (applyTrace fs evs).file q = ((savesTo evs q).getLast?).or (fs.file q) := by
  induction evs with
  | nil =>
    intro fs q
    rfl
  | cons e evs ih =>
    intro fs q
    have hstep : applyTrace fs (e :: evs) = applyTrace (applyEvent fs e) evs := rfl
    rw [hstep, ih]
    cases e with
    | save p c =>
      by_cases hq : p = q
      · subst hq
        have hs : savesTo (Event.save p c :: evs) p = c :: savesTo evs p := by
          simp [savesTo, List.filterMap_cons]
        have hf : (applyEvent fs (Event.save p c)).file p = some c := by
          simp [applyEvent]
        rw [hs, hf, getLast?_cons_or]
        cases hl : (savesTo evs p).getLast? with
        | none => rfl
        | some z => rfl
      · have hs : savesTo (Event.save p c :: evs) q = savesTo evs q := by
          simp [savesTo, List.filterMap_cons, hq]
        have hf : (applyEvent fs (Event.save p c)).file q = fs.file q := by
          simp [applyEvent]
          intro h
          exact absurd h.symm hq
        rw [hs, hf]
    | mkdirP d =>
      have hs : savesTo (Event.mkdirP d :: evs) q = savesTo evs q := by
        simp [savesTo, List.filterMap_cons]
      rw [hs]
      rfl
    | proc a =>
      have hs : savesTo (Event.proc a :: evs) q = savesTo evs q := by
        simp [savesTo, List.filterMap_cons]
      rw [hs]
      rfl
    | openedPath a =>
      have hs : savesTo (Event.openedPath a :: evs) q = savesTo evs q := by
        simp [savesTo, List.filterMap_cons]
      rw [hs]
      rfl
    | openedBytes a =>
      have hs : savesTo (Event.openedBytes a :: evs) q = savesTo evs q := by
        simp [savesTo, List.filterMap_cons]
      rw [hs]
      rfl

/-- `savesTo` distributes over trace concatenation. -/
theorem savesTo_append (l1 l2 : List Event) (q : List String) :
    savesTo (l1 ++ l2) q = savesTo l1 q ++ savesTo l2 q :=
  List.filterMap_append _ _ _

/-- A trace with no save event targeting `q` writes nothing to `q`. -/
theorem savesTo_eq_nil (evs : List Event) (q : List String)
    (h : ∀ sp, Event.save q sp ∉ evs) : savesTo evs q = [] := by
  rw [savesTo, List.filterMap_eq_nil_iff]
  intro e he
  cases e with
  | save p c =>
    have hpq : p ≠ q := by
      intro hpq
      subst hpq
      exact h c he
    simp [hpq]
  | mkdirP d => rfl
  | proc a => rfl
  | openedPath a => rfl
  | openedBytes a => rfl

/-! ## Event-shape lemmas for the pipeline stages -/

/-- `extract_cr3_preview` only runs subprocesses and decodes in-memory bytes;
it performs no filesystem write. -/
theorem extract_trace_shape (env : Env) (p : List String) (tag : String) :
    ∀ e ∈ (extract_cr3_preview env p tag).1,
      (∃ a, e = .proc a) ∨ ∃ b, e = .openedBytes b := by
  intro e he
  simp only [extract_cr3_preview] at he
  split at he
  · simp only [List.mem_singleton] at he
    exact Or.inl ⟨_, he⟩
  · split at he <;>
    · simp only [List.mem_cons, List.not_mem_nil, or_false] at he
      rcases he with rfl | rfl | rfl
      · exact Or.inl ⟨_, rfl⟩
      · exact Or.inl ⟨_, rfl⟩
      · exact Or.inr ⟨_, rfl⟩

/-- The decode stage only reads; it performs no filesystem write. -/
theorem decodeStage_trace_shape (env : Env) (p : List String) :
    ∀ e ∈ (decodeStage env p).1,
      (∃ a, e = .proc a) ∨ (∃ b, e = .openedBytes b) ∨ ∃ q, e = .openedPath q := by
  intro e he
  simp only [decodeStage] at he
  split at he
  · split at he
    · next evs err heq =>
      have hsh := extract_trace_shape env p "PreviewImage" e
      rw [heq] at hsh
      exact (hsh he).imp id Or.inl
    · next evs b heq =>
      have hsh := extract_trace_shape env p "PreviewImage" e
      rw [heq] at hsh
      exact (hsh he).imp id Or.inl
  · simp only [List.mem_singleton] at he
    exact Or.inr (Or.inr ⟨_, he⟩)

/-- Every event of one tier iteration is the tier's `mkdir` or a save of the
tier's artifact carrying the run's metadata. -/
theorem renderTier_trace_shape (env : Env) (img : Img) (meta : List (String × String))
    (ext : String) (out : List String) (fn : String) (label : String) (cfg : TierCfg) :
    ∀ e ∈ (renderTier env img meta ext out fn label cfg).1,
      e = .mkdirP (out ++ [label]) ∨
      ∃ sp, e = .save (out ++ [label, fn]) sp ∧ sp.meta = meta := by
  intro e he
  simp only [renderTier] at he
  split at he
  · simp at he
  · split at he
    · simp only [List.mem_singleton] at he
      exact Or.inl he
    · split at he
      · split at he
        · simp only [List.mem_cons, List.not_mem_nil, or_false] at he
          rcases he with rfl | rfl
          · exact Or.inl rfl
          · exact Or.inr ⟨_, rfl, rfl⟩
        · simp only [List.mem_append, List.mem_cons, List.not_mem_nil, or_false,
            List.mem_singleton] at he
          rcases he with (rfl | rfl) | rfl
          · exact Or.inl rfl
          · exact Or.inr ⟨_, rfl, rfl⟩
          · exact Or.inr ⟨_, rfl, rfl⟩
      · simp only [List.mem_cons, List.not_mem_nil, or_false] at he
        rcases he with rfl | rfl
        · exact Or.inl rfl
        · exact Or.inr ⟨_, rfl, rfl⟩

/-- A successful tier iteration saved the tier's artifact. -/
theorem renderTier_ok_save (env : Env) (img : Img) (meta : List (String × String))
    (ext : String) (out : List String) (fn : String) (label : String) (cfg : TierCfg)
    (evs : List Event)
    (h : renderTier env img meta ext out fn label cfg = (evs, none)) :
    ∃ sp, Event.save (out ++ [label, fn]) sp ∈ evs := by
  simp only [renderTier] at h
  split at h
  · simp at h
  · split at h
    · simp at h
    · split at h
      · split at h
        · simp at h
        · have h1 : _ = evs := (Prod.mk.injEq _ _ _ _).mp h |>.1
          refine ⟨⟨resizedCopy env img cfg, meta⟩, ?_⟩
          rw [← h1]
          simp
      · have h1 : _ = evs := (Prod.mk.injEq _ _ _ _).mp h |>.1
        refine ⟨⟨resizedCopy env img cfg, meta⟩, ?_⟩
        rw [← h1]
        simp

/-- Inversion of a successful `add_raw_label`: the resulting image carries
exactly the label drawn at the top-left with half-font-size padding, black
box and white text. -/
theorem add_raw_label_ok (env : Env) (image : Img) (label text : String)
    (thumb2 : Img) (h : add_raw_label env image label text = .ok thumb2) :
    thumb2 = Img.labeled image
      { text := text
        font := FONT
        fontSize := fontSizeOf label
        pos := (0, 0)
        rect := ((0 - ((fontSizeOf label / 2 : ℕ) : ℤ), 0 - ((fontSizeOf label / 2 : ℕ) : ℤ)),
          (((env.textBBox (0, 0) text FONT (fontSizeOf label)).2.1 -
            (env.textBBox (0, 0) text FONT (fontSizeOf label)).1.1) +
              ((fontSizeOf label / 2 : ℕ) : ℤ),
           ((env.textBBox (0, 0) text FONT (fontSizeOf label)).2.2 -
            (env.textBBox (0, 0) text FONT (fontSizeOf label)).1.2) +
              ((fontSizeOf label / 2 : ℕ) : ℤ)))
        fill := "black"
        textFill := "white" } := by
  simp only [add_raw_label] at h
  split at h
  · simp at h
  · simp only [Except.ok.injEq] at h
    exact h.symm

/-- A successful tier iteration for a supported extension produced exactly
`mkdir`, the plain save, then the labeled save. -/
theorem renderTier_ok_supported (env : Env) (img : Img) (meta : List (String × String))
    (ext : String) (out : List String) (fn : String) (label : String) (cfg : TierCfg)
    (evs : List Event)
    (h : renderTier env img meta ext out fn label cfg = (evs, none))
    (hext : ext ∈ SUPPORTED_EXTENSIONS) :
    ∃ thumb2, add_raw_label env (resizedCopy env img cfg) label ext = .ok thumb2 ∧
      evs = [.mkdirP (out ++ [label]),
             .save (out ++ [label, fn]) ⟨resizedCopy env img cfg, meta⟩,
             .save (out ++ [label, fn]) ⟨thumb2, meta⟩] := by
  simp only [renderTier] at h
  split at h
  · simp at h
  · split at h
    · simp at h
    · split at h
      · split at h
        · simp at h
        · next thumb2 heq =>
          have h1 : _ = evs := (Prod.mk.injEq _ _ _ _).mp h |>.1
          exact ⟨thumb2, heq, h1.symm⟩
      · next hns => exact absurd hext hns

/-- Every event of the tier loop belongs to one configured tier: its `mkdir`
or a save of its artifact with the run's metadata. -/
theorem renderTiers_trace_shape (env : Env) (img : Img) (meta : List (String × String))
    (ext : String) (out : List String) (fn : String) :
    ∀ (cfgs : List (String × TierCfg)), ∀ e ∈ (renderTiers env img meta ext out fn cfgs).1,
      ∃ lc ∈ cfgs, e = .mkdirP (out ++ [lc.1]) ∨
        ∃ sp, e = .save (out ++ [lc.1, fn]) sp ∧ sp.meta = meta := by
  intro cfgs
  induction cfgs with
  | nil =>
    intro e he
    simp [renderTiers] at he
  | cons lc cfgs ih =>
    obtain ⟨label, cfg⟩ := lc
    intro e he
    simp only [renderTiers] at he
    split at he
    · next evs0 err heq =>
      have hsh := renderTier_trace_shape env img meta ext out fn label cfg e
      rw [heq] at hsh
      exact ⟨(label, cfg), List.mem_cons_self _ _, hsh he⟩
    · next evs0 heq =>
      simp only [List.mem_append] at he
      rcases he with he | he
      · have hsh := renderTier_trace_shape env img meta ext out fn label cfg e
        rw [heq] at hsh
        exact ⟨(label, cfg), List.mem_cons_self _ _, hsh he⟩
      · rcases ih e he with ⟨lc', hlc', hsh⟩
        exact ⟨lc', List.mem_cons_of_mem _ hlc', hsh⟩

/-- A successful tier loop saved every configured tier's artifact. -/
theorem renderTiers_ok_save (env : Env) (img : Img) (meta : List (String × String))
    (ext : String) (out : List String) (fn : String) :
    ∀ (cfgs : List (String × TierCfg)) (evs : List Event),
      renderTiers env img meta ext out fn cfgs = (evs, none) →
      ∀ lc ∈ cfgs, ∃ sp, Event.save (out ++ [lc.1, fn]) sp ∈ evs := by
  intro cfgs
  induction cfgs with
  | nil =>
    intro evs _ lc hlc
    exact absurd hlc (List.not_mem_nil _)
  | cons lc0 cfgs ih =>
    obtain ⟨label, cfg⟩ := lc0
    intro evs h lc hlc
    simp only [renderTiers] at h
    split at h
    · simp at h
    · next evs0 heq =>
      have h1 : evs0 ++ (renderTiers env img meta ext out fn cfgs).1 = evs :=
        (Prod.mk.injEq _ _ _ _).mp h |>.1
      have h2 : (renderTiers env img meta ext out fn cfgs).2 = none :=
        (Prod.mk.injEq _ _ _ _).mp h |>.2
      rcases List.mem_cons.mp hlc with rfl | hlc'
      · rcases renderTier_ok_save env img meta ext out fn label cfg evs0 heq with ⟨sp, hsp⟩
        exact ⟨sp, by rw [← h1]; exact List.mem_append_left _ hsp⟩
      · have hrec : renderTiers env img meta ext out fn cfgs =
            ((renderTiers env img meta ext out fn cfgs).1, none) := by
          rw [← h2]
        rcases ih _ hrec lc hlc' with ⟨sp, hsp⟩
        exact ⟨sp, by rw [← h1]; exact List.mem_append_right _ hsp⟩

/-- Artifact paths of distinct tiers are distinct. -/
theorem tierPath_inj (out : List String) (fn : String) (a b : String)
    (h : out ++ [a, fn] = out ++ [b, fn]) : a = b := by
  have h' := List.append_cancel_left h
  simpa using h'

/-- In a successful tier loop over tiers with pairwise-distinct labels and a
supported extension, each tier's artifact receives exactly two saves: first
the plain resized copy, then its labeled version. -/
theorem renderTiers_savesTo (env : Env) (img : Img) (meta : List (String × String))
    (ext : String) (out : List String) (fn : String) (hext : ext ∈ SUPPORTED_EXTENSIONS) :
    ∀ (cfgs : List (String × TierCfg)) (evs : List Event),
      renderTiers env img meta ext out fn cfgs = (evs, none) →
      (cfgs.map Prod.fst).Nodup →
      ∀ lc ∈ cfgs, ∃ thumb2,
        add_raw_label env (resizedCopy env img lc.2) lc.1 ext = .ok thumb2 ∧
        savesTo evs (out ++ [lc.1, fn]) =
          [⟨resizedCopy env img lc.2, meta⟩, ⟨thumb2, meta⟩] := by
  intro cfgs
  induction cfgs with
  | nil =>
    intro evs _ _ lc hlc
    exact absurd hlc (List.not_mem_nil _)
  | cons lc0 cfgs ih =>
    obtain ⟨label, cfg⟩ := lc0
    intro evs h hnd lc hlc
    have hnin : label ∉ cfgs.map Prod.fst := (List.nodup_cons.mp (by simpa using hnd)).1
    have hnd' : (cfgs.map Prod.fst).Nodup := (List.nodup_cons.mp (by simpa using hnd)).2
    simp only [renderTiers] at h
    split at h
    · simp at h
    · next evs0 heq =>
      have h1 : evs0 ++ (renderTiers env img meta ext out fn cfgs).1 = evs :=
        (Prod.mk.injEq _ _ _ _).mp h |>.1
      have h2 : (renderTiers env img meta ext out fn cfgs).2 = none :=
        (Prod.mk.injEq _ _ _ _).mp h |>.2
      have hrec : renderTiers env img meta ext out fn cfgs =
          ((renderTiers env img meta ext out fn cfgs).1, none) := by
        rw [← h2]
      rcases List.mem_cons.mp hlc with rfl | hlc'
      · -- the head tier
        rcases renderTier_ok_supported env img meta ext out fn label cfg evs0 heq hext
          with ⟨thumb2, hlab, hevs0⟩
        refine ⟨thumb2, hlab, ?_⟩
        rw [← h1, savesTo_append]
        have hrest : savesTo (renderTiers env img meta ext out fn cfgs).1
            (out ++ [label, fn]) = [] := by
          apply savesTo_eq_nil
          intro sp hsp
          rcases renderTiers_trace_shape env img meta ext out fn cfgs _ hsp
            with ⟨lc', hlc', hsh | ⟨sp', hsp', _⟩⟩
          · exact absurd hsh (by simp)
          · have hpq : out ++ [label, fn] = out ++ [lc'.1, fn] := by
              have h'' := hsp'
              simp only [Event.save.injEq] at h''
              exact h''.1
            have : label = lc'.1 := tierPath_inj out fn _ _ hpq
            exact hnin (this ▸ List.mem_map_of_mem Prod.fst hlc')
        rw [hrest, hevs0]
        simp [savesTo, List.filterMap_cons]
      · -- a tier of the tail
        rcases ih _ hrec hnd' lc hlc' with ⟨thumb2, hlab, hsv⟩
        refine ⟨thumb2, hlab, ?_⟩
        rw [← h1, savesTo_append]
        have hhead : savesTo evs0 (out ++ [lc.1, fn]) = [] := by
          apply savesTo_eq_nil
          intro sp hsp
          have hsp0 : Event.save (out ++ [lc.1, fn]) sp ∈
              (renderTier env img meta ext out fn label cfg).1 := by
            rw [heq]
            exact hsp
          rcases renderTier_trace_shape env img meta ext out fn label cfg _ hsp0
            with hsh | ⟨sp', hsp', _⟩
          · exact absurd hsh (by simp)
          · have hpq : out ++ [lc.1, fn] = out ++ [label, fn] := by
              have h'' := hsp'
              simp only [Event.save.injEq] at h''
              exact h''.1
            have : lc.1 = label := tierPath_inj out fn _ _ hpq
            exact hnin (this ▸ List.mem_map_of_mem Prod.fst hlc')
        rw [hhead, hsv]
        simp

/-! ## `tryBody` and `generate_thumbnails` lemmas -/

/-- Every save in the try-block's trace targets a configured tier's artifact
path and carries the metadata built from the stat result. -/
theorem tryBody_save_shape (env : Env) (p out : List String) (uri fn : String)
    (q : List String) (sp : SavedPng)
    (hmem : Event.save q sp ∈ (tryBody env p out uri fn).1) :
    (∃ lc ∈ THUMBNAIL_CONFIG, q = out ++ [lc.1, fn]) ∧
    ∃ m, env.stMtime p = .ok m ∧ sp.meta = metaOf uri m := by
  simp only [tryBody] at hmem
  split at hmem
  · next evs err heq =>
    have hsh := decodeStage_trace_shape env p (Event.save q sp)
    rw [heq] at hsh
    rcases hsh hmem with ⟨a, ha⟩ | ⟨b, hb⟩ | ⟨r, hr⟩ <;> simp_all
  · next evs img0 heq =>
    split at hmem
    · have hsh := decodeStage_trace_shape env p (Event.save q sp)
      rw [heq] at hsh
      rcases hsh hmem with ⟨a, ha⟩ | ⟨b, hb⟩ | ⟨r, hr⟩ <;> simp_all
    · next m hm =>
      simp only [List.mem_append] at hmem
      rcases hmem with hmem | hmem
      · have hsh := decodeStage_trace_shape env p (Event.save q sp)
        rw [heq] at hsh
        rcases hsh hmem with ⟨a, ha⟩ | ⟨b, hb⟩ | ⟨r, hr⟩ <;> simp_all
      · rcases renderTiers_trace_shape env (Img.transposed img0) (metaOf uri m)
          (pyLower (pySuffix (lastComp p))) out fn THUMBNAIL_CONFIG _ hmem
          with ⟨lc, hlc, hsh | ⟨sp', hsp', hmeta⟩⟩
        · exact absurd hsh (by simp)
        · have h'' := hsp'
          simp only [Event.save.injEq] at h''
          refine ⟨⟨lc, hlc, h''.1⟩, m, hm, ?_⟩
          rw [h''.2]
          exact hmeta

/-- Every `mkdir` in the try-block's trace targets a configured tier
directory. -/
theorem tryBody_mkdir_shape (env : Env) (p out : List String) (uri fn : String)
    (d : List String)
    (hmem : Event.mkdirP d ∈ (tryBody env p out uri fn).1) :
    ∃ lc ∈ THUMBNAIL_CONFIG, d = out ++ [lc.1] := by
  simp only [tryBody] at hmem
  split at hmem
  · next evs err heq =>
    have hsh := decodeStage_trace_shape env p (Event.mkdirP d)
    rw [heq] at hsh
    rcases hsh hmem with ⟨a, ha⟩ | ⟨b, hb⟩ | ⟨r, hr⟩ <;> simp_all
  · next evs img0 heq =>
    split at hmem
    · have hsh := decodeStage_trace_shape env p (Event.mkdirP d)
      rw [heq] at hsh
      rcases hsh hmem with ⟨a, ha⟩ | ⟨b, hb⟩ | ⟨r, hr⟩ <;> simp_all
    · next m hm =>
      simp only [List.mem_append] at hmem
      rcases hmem with hmem | hmem
      · have hsh := decodeStage_trace_shape env p (Event.mkdirP d)
        rw [heq] at hsh
        rcases hsh hmem with ⟨a, ha⟩ | ⟨b, hb⟩ | ⟨r, hr⟩ <;> simp_all
      · rcases renderTiers_trace_shape env (Img.transposed img0) (metaOf uri m)
          (pyLower (pySuffix (lastComp p))) out fn THUMBNAIL_CONFIG _ hmem
          with ⟨lc, hlc, hsh | ⟨sp', hsp', _⟩⟩
        · have h'' := hsh
          simp only [Event.mkdirP.injEq] at h''
          exact ⟨lc, hlc, h''⟩
        · exact absurd hsp' (by simp)

/-- A successful try block decomposes into a successful decode, a successful
stat and a successful tier loop. -/
theorem tryBody_ok_structure (env : Env) (p out : List String) (uri fn : String)
    (evsT : List Event) (h : tryBody env p out uri fn = (evsT, none)) :
    ∃ evsD evsR img0 m,
      evsT = evsD ++ evsR ∧
      decodeStage env p = (evsD, .ok img0) ∧
      env.stMtime p = .ok m ∧
      renderTiers env (Img.transposed img0) (metaOf uri m)
        (pyLower (pySuffix (lastComp p))) out fn THUMBNAIL_CONFIG = (evsR, none) := by
  simp only [tryBody] at h
  split at h
  · simp at h
  · next evs img0 heq =>
    split at h
    · simp at h
    · next m hm =>
      have h1 : evs ++ (renderTiers env (Img.transposed img0) (metaOf uri m)
          (pyLower (pySuffix (lastComp p))) out fn THUMBNAIL_CONFIG).1 = evsT :=
        (Prod.mk.injEq _ _ _ _).mp h |>.1
      have h2 : (renderTiers env (Img.transposed img0) (metaOf uri m)
          (pyLower (pySuffix (lastComp p))) out fn THUMBNAIL_CONFIG).2 = none :=
        (Prod.mk.injEq _ _ _ _).mp h |>.2
      refine ⟨evs, _, img0, m, h1.symm, heq, hm, ?_⟩
      rw [← h2]

/-- A successful try block saved every configured tier's artifact. -/
theorem tryBody_ok_save (env : Env) (p out : List String) (uri fn : String)
    (evsT : List Event) (h : tryBody env p out uri fn = (evsT, none)) :
    ∀ lc ∈ THUMBNAIL_CONFIG, ∃ sp, Event.save (out ++ [lc.1, fn]) sp ∈ evsT := by
  intro lc hlc
  rcases tryBody_ok_structure env p out uri fn evsT h
    with ⟨evsD, evsR, img0, m, rfl, _, _, hrt⟩
  rcases renderTiers_ok_save env (Img.transposed img0) (metaOf uri m)
    (pyLower (pySuffix (lastComp p))) out fn THUMBNAIL_CONFIG evsR hrt lc hlc
    with ⟨sp, hsp⟩
  exact ⟨sp, List.mem_append_right _ hsp⟩

/-- An uncaught exception (the result `.error`) escapes before any event. -/
theorem generate_error_trace (env : Env) (fs : FS) (p out : List String) (ow : Bool)
    (e : String) (evs : List Event)
    (h : generate_thumbnails env fs p out ow = (.error e, evs)) : evs = [] := by
  simp only [generate_thumbnails] at h
  split at h
  · exact (((Prod.mk.injEq _ _ _ _).mp h).2).symm
  · simp at h
  · split at h <;> simp at h

/-- A caught exception surfaces as `f"{image_path}: {e}"`. -/
theorem generate_some_form (env : Env) (fs : FS) (p out : List String) (ow : Bool)
    (m : String) (evs : List Event)
    (h : generate_thumbnails env fs p out ow = (.ok (some m), evs)) :
    ∃ e, m = pathStr p ++ ": " ++ e := by
  simp only [generate_thumbnails] at h
  split at h
  · simp at h
  · simp at h
  · split at h
    · next evsT e heq =>
      have h1 := ((Prod.mk.injEq _ _ _ _).mp h).1
      simp only [Except.ok.injEq, Option.some.injEq] at h1
      exact ⟨e, h1.symm⟩
    · simp at h

/-- If no existence check raises, nothing escapes `generate_thumbnails`. -/
theorem generate_isOk (env : Env) (fs : FS) (p out : List String) (ow : Bool)
    (he : ∀ q, env.existsErr q = none) :
    ∃ r evs, generate_thumbnails env fs p out ow = (.ok r, evs) := by
  simp only [generate_thumbnails]
  rcases hc : (if ow then Except.ok false else checkAllExist env fs
      (THUMBNAIL_CONFIG.map
        (fun lc => out ++ [lc.1, env.md5hex (env.resolveUri p) ++ ".png"]))) with e | b
  · exfalso
    cases ow with
    | true => simp at hc
    | false =>
      simp only [Bool.false_eq_true, if_false] at hc
      rcases checkAllExist_isOk env fs he (THUMBNAIL_CONFIG.map
        (fun lc => out ++ [lc.1, env.md5hex (env.resolveUri p) ++ ".png"])) with ⟨b, hb⟩
      rw [hb] at hc
      exact absurd hc (by simp)
  · rw [hc]
    cases b with
    | true => exact ⟨none, [], rfl⟩
    | false =>
      rcases ht : tryBody env p out (env.resolveUri p)
          (env.md5hex (env.resolveUri p) ++ ".png") with ⟨evsT, oe⟩
      cases oe with
      | none => exact ⟨none, evsT, rfl⟩
      | some e => exact ⟨some (pathStr p ++ ": " ++ e), evsT, rfl⟩

/-- Every save of a run targets a configured tier's artifact for the run's
cache filename and carries the `PngInfo` metadata of the run. -/
theorem generate_save_shape (env : Env) (fs : FS) (p out : List String) (ow : Bool)
    (r : Except String (Option String)) (evs : List Event) (q : List String) (sp : SavedPng)
    (h : generate_thumbnails env fs p out ow = (r, evs))
    (hmem : Event.save q sp ∈ evs) :
    ∃ lc ∈ THUMBNAIL_CONFIG, q = out ++ [lc.1, outFilename env p] ∧
      ∃ m, env.stMtime p = .ok m ∧ sp.meta = metaOf (env.resolveUri p) m := by
  simp only [generate_thumbnails] at h
  split at h
  · have hevs : evs = [] := (((Prod.mk.injEq _ _ _ _).mp h).2).symm
    rw [hevs] at hmem
    exact absurd hmem (List.not_mem_nil _)
  · have hevs : evs = [] := (((Prod.mk.injEq _ _ _ _).mp h).2).symm
    rw [hevs] at hmem
    exact absurd hmem (List.not_mem_nil _)
  · split at h
    · next evsT e heq =>
      have hevs : evsT = evs := ((Prod.mk.injEq _ _ _ _).mp h).2
      have hmem' : Event.save q sp ∈ (tryBody env p out (env.resolveUri p)
          (env.md5hex (env.resolveUri p) ++ ".png")).1 := by
        rw [heq, hevs]
        exact hmem
      rcases tryBody_save_shape env p out _ _ q sp hmem' with ⟨⟨lc, hlc, hq⟩, m, hm, hmeta⟩
      exact ⟨lc, hlc, hq, m, hm, hmeta⟩
    · next evsT heq =>
      have hevs : evsT = evs := ((Prod.mk.injEq _ _ _ _).mp h).2
      have hmem' : Event.save q sp ∈ (tryBody env p out (env.resolveUri p)
          (env.md5hex (env.resolveUri p) ++ ".png")).1 := by
        rw [heq, hevs]
        exact hmem
      rcases tryBody_save_shape env p out _ _ q sp hmem' with ⟨⟨lc, hlc, hq⟩, m, hm, hmeta⟩
      exact ⟨lc, hlc, hq, m, hm, hmeta⟩

/-- Every `mkdir` of a run targets a configured tier directory. -/
theorem generate_mkdir_shape (env : Env) (fs : FS) (p out : List String) (ow : Bool)
    (r : Except String (Option String)) (evs : List Event) (d : List String)
    (h : generate_thumbnails env fs p out ow = (r, evs))
    (hmem : Event.mkdirP d ∈ evs) :
    ∃ lc ∈ THUMBNAIL_CONFIG, d = out ++ [lc.1] := by
  simp only [generate_thumbnails] at h
  split at h
  · have hevs : evs = [] := (((Prod.mk.injEq _ _ _ _).mp h).2).symm
    rw [hevs] at hmem
    exact absurd hmem (List.not_mem_nil _)
  · have hevs : evs = [] := (((Prod.mk.injEq _ _ _ _).mp h).2).symm
    rw [hevs] at hmem
    exact absurd hmem (List.not_mem_nil _)
  · split at h
    · next evsT e heq =>
      have hevs : evsT = evs := ((Prod.mk.injEq _ _ _ _).mp h).2
      have hmem' : Event.mkdirP d ∈ (tryBody env p out (env.resolveUri p)
          (env.md5hex (env.resolveUri p) ++ ".png")).1 := by
        rw [heq, hevs]
        exact hmem
      exact tryBody_mkdir_shape env p out _ _ d hmem'
    · next evsT heq =>
      have hevs : evsT = evs := ((Prod.mk.injEq _ _ _ _).mp h).2
      have hmem' : Event.mkdirP d ∈ (tryBody env p out (env.resolveUri p)
          (env.md5hex (env.resolveUri p) ++ ".png")).1 := by
        rw [heq, hevs]
        exact hmem
      exact tryBody_mkdir_shape env p out _ _ d hmem'

/-- After a run that returned `None`, every tier's artifact path exists. -/
theorem generate_ok_none_exists (env : Env) (fs : FS) (p out : List String) (ow : Bool)
    (evs : List Event)
    (h : generate_thumbnails env fs p out ow = (.ok none, evs)) :
    ∀ lc ∈ THUMBNAIL_CONFIG,
      (applyTrace fs evs).existsAt (out ++ [lc.1, outFilename env p]) = true := by
  intro lc hlc
  simp only [generate_thumbnails] at h
  split at h
  · simp at h
  · next heq =>
    have hevs : evs = [] := (((Prod.mk.injEq _ _ _ _).mp h).2).symm
    subst hevs
    cases ow with
    | true => simp at heq
    | false =>
      simp only [Bool.false_eq_true, if_false] at heq
      exact exists_of_checkAllExist_true env fs _ heq _ (List.mem_map_of_mem _ hlc)
  · split at h
    · simp at h
    · next evsT heq =>
      have hevs : evsT = evs := ((Prod.mk.injEq _ _ _ _).mp h).2
      rcases tryBody_ok_save env p out _ _ _ heq lc hlc with ⟨sp, hsp⟩
      rw [hevs] at hsp
      have hs := file_isSome_applyTrace_of_save evs fs _ sp hsp
      simp [FS.existsAt, outFilename, hs]

/-- When all tier artifacts exist (and the checks do not raise), the run with
`overwrite=False` skips: it returns `None` with an empty trace. -/
theorem generate_fresh (env : Env) (fs : FS) (p out : List String)
    (he : ∀ lc ∈ THUMBNAIL_CONFIG, env.existsErr (out ++ [lc.1, outFilename env p]) = none)
    (hx : ∀ lc ∈ THUMBNAIL_CONFIG, fs.existsAt (out ++ [lc.1, outFilename env p]) = true) :
    generate_thumbnails env fs p out false = (.ok none, []) := by
  have hck : checkAllExist env fs (THUMBNAIL_CONFIG.map
      (fun lc => out ++ [lc.1, env.md5hex (env.resolveUri p) ++ ".png"])) = .ok true := by
    apply checkAllExist_true_of
    · intro q hq
      rcases List.mem_map.mp hq with ⟨lc, hlc, rfl⟩
      exact he lc hlc
    · intro q hq
      rcases List.mem_map.mp hq with ⟨lc, hlc, rfl⟩
      exact hx lc hlc
  simp [generate_thumbnails, hck]

/-- Claim C1: with `overwrite=False`, (i) if every tier's artifact exists (and
the checks raise nothing), the run returns `None` without decoding and without
any filesystem event; (ii) after any run that returned `None`, a second run on
the resulting filesystem performs no event; (iii) a run that returned `None`
and did generate (non-empty trace) saved *every* tier's artifact. -/
theorem claim_C1 :
    (∀ (env : Env) (fs : FS) (p out : List String),
      (∀ lc ∈ THUMBNAIL_CONFIG,
        env.existsErr (out ++ [lc.1, outFilename env p]) = none) →
      (∀ lc ∈ THUMBNAIL_CONFIG,
        fs.existsAt (out ++ [lc.1, outFilename env p]) = true) →
      generate_thumbnails env fs p out false = (.ok none, [])) ∧
    (∀ (env : Env) (fs : FS) (p out : List String)
       (r : Except String (Option String)) (evs : List Event),
      generate_thumbnails env fs p out false = (r, evs) → r = .ok none →
      (generate_thumbnails env (applyTrace fs evs) p out false).2 = []) ∧
    (∀ (env : Env) (fs : FS) (p out : List String) (evs : List Event),
      generate_thumbnails env fs p out false = (.ok none, evs) → evs ≠ [] →
      ∀ lc ∈ THUMBNAIL_CONFIG, ∃ sp,
        Event.save (out ++ [lc.1, outFilename env p]) sp ∈ evs) := by
  refine ⟨generate_fresh, ?_, ?_⟩
  · intro env fs p out r evs h hr
    subst hr
    have hx := generate_ok_none_exists env fs p out false evs h
    simp only [generate_thumbnails]
    rcases hc : (if false then Except.ok false else checkAllExist env (applyTrace fs evs)
        (THUMBNAIL_CONFIG.map
          (fun lc => out ++ [lc.1, env.md5hex (env.resolveUri p) ++ ".png"]))) with e | b
    · rw [hc]
    · rw [hc]
      cases b with
      | true => rfl
      | false =>
        exfalso
        simp only [Bool.false_eq_true, if_false] at hc
        rcases missing_of_checkAllExist_false env (applyTrace fs evs) _ hc
          with ⟨q, hq, hqe⟩
        rcases List.mem_map.mp hq with ⟨lc, hlc, rfl⟩
        have hx' : (applyTrace fs evs).existsAt
            (out ++ [lc.1, env.md5hex (env.resolveUri p) ++ ".png"]) = true := hx lc hlc
        rw [hx'] at hqe
        exact absurd hqe (by simp)
  · intro env fs p out evs h hne lc hlc
    simp only [generate_thumbnails] at h
    split at h
    · simp at h
    · have hevs : evs = [] := (((Prod.mk.injEq _ _ _ _).mp h).2).symm
      exact absurd hevs hne
    · split at h
      · simp at h
      · next evsT heq =>
        have hevs : evsT = evs := ((Prod.mk.injEq _ _ _ _).mp h).2
        rcases tryBody_ok_save env p out _ _ _ heq lc hlc with ⟨sp, hsp⟩
        rw [hevs] at hsp
        exact ⟨sp, hsp⟩

/-- Filesystem where all three tier artifacts of `img.jpg` (under `envNice`'s
cache key) already exist. -/
def fsC1 : FS :=
  ⟨fun q => if q = ["o", "normal", "h15.png"] ∨ q = ["o", "large", "h15.png"] ∨
      q = ["o", "x-large", "h15.png"] then some ⟨Img.fromRaw [], []⟩ else none,
   fun _ => false⟩

/-- Witness for claim C1: on a filesystem already holding all three tier
artifacts, the run returns `None` with an empty trace. -/
theorem claim_C1_witness :
    (∀ lc ∈ THUMBNAIL_CONFIG,
      envNice.existsErr (["o"] ++ [lc.1, outFilename envNice ["img.jpg"]]) = none) ∧
    (∀ lc ∈ THUMBNAIL_CONFIG,
      fsC1.existsAt (["o"] ++ [lc.1, outFilename envNice ["img.jpg"]]) = true) ∧
    generate_thumbnails envNice fsC1 ["img.jpg"] ["o"] false = (.ok none, []) := by
  have h1 : ∀ lc ∈ THUMBNAIL_CONFIG,
      envNice.existsErr (["o"] ++ [lc.1, outFilename envNice ["img.jpg"]]) = none := by
    intro lc _
    rfl
  have h2 : ∀ lc ∈ THUMBNAIL_CONFIG,
      fsC1.existsAt (["o"] ++ [lc.1, outFilename envNice ["img.jpg"]]) = true := by
    intro lc hlc
    fin_cases hlc <;> rfl
  exact ⟨h1, h2, claim_C1.1 envNice fsC1 ["img.jpg"] ["o"] h1 h2⟩

/-! ## Claim C2: error isolation in `process_images` -/

/-- The sequential batch never removes an existing path. -/
theorem process_preserves_existsAt (env : Env) (out : List String) (ow : Bool) :
    ∀ (paths : List (List String)) (fs : FS) (res : Except String (List String)) (fs' : FS),
      process_images env fs paths out ow = (res, fs') →
      ∀ q, fs.existsAt q = true → fs'.existsAt q = true := by
  intro paths
  induction paths with
  | nil =>
    intro fs res fs' h q hq
    have h2 := ((Prod.mk.injEq _ _ _ _).mp h).2
    rw [← h2]
    exact hq
  | cons p rest ih =>
    intro fs res fs' h q hq
    simp only [process_images] at h
    split at h
    · have h2 := ((Prod.mk.injEq _ _ _ _).mp h).2
      rw [← h2]
      exact existsAt_applyTrace_mono _ fs q hq
    · exact ih _ res fs' h q (existsAt_applyTrace_mono _ fs q hq)
    · split at h
      · next e fs'' heq =>
        have h2 := ((Prod.mk.injEq _ _ _ _).mp h).2
        rw [← h2]
        exact ih _ _ _ heq q (existsAt_applyTrace_mono _ fs q hq)
      · next ms fs'' heq =>
        have h2 := ((Prod.mk.injEq _ _ _ _).mp h).2
        rw [← h2]
        exact ih _ _ _ heq q (existsAt_applyTrace_mono _ fs q hq)

/-- Claim C2 (amended): when the pre-`try` freshness stage raises nothing,
every other failure is caught per file: the batch returns normally, every
report reads `f"{path}: {e}"` for one of the submitted paths, and every
submitted file either has a report or ends with all its tier artifacts
present. -/
theorem claim_C2_amended (env : Env) (out : List String) (ow : Bool)
    (he : ∀ q, env.existsErr q = none) :
    ∀ (paths : List (List String)) (fs : FS),
      ∃ ms fs', process_images env fs paths out ow = (.ok ms, fs') ∧
        (∀ m ∈ ms, ∃ p ∈ paths, ∃ e, m = pathStr p ++ ": " ++ e) ∧
        (∀ p ∈ paths, (∃ e, (pathStr p ++ ": " ++ e) ∈ ms) ∨
           ∀ lc ∈ THUMBNAIL_CONFIG,
             fs'.existsAt (out ++ [lc.1, outFilename env p]) = true) := by
  intro paths
  induction paths with
  | nil =>
    intro fs
    exact ⟨[], fs, rfl, by simp, by simp⟩
  | cons p rest ih =>
    intro fs
    rcases generate_isOk env fs p out ow he with ⟨r0, evs0, hgen⟩
    cases r0 with
    | none =>
      rcases ih (applyTrace fs evs0) with ⟨ms, fs', hrun, hform, hart⟩
      refine ⟨ms, fs', ?_, ?_, ?_⟩
      · simp only [process_images, hgen]
        exact hrun
      · intro m hm
        rcases hform m hm with ⟨p', hp', e, hme⟩
        exact ⟨p', List.mem_cons_of_mem _ hp', e, hme⟩
      · intro p' hp'
        rcases List.mem_cons.mp hp' with rfl | hp''
        · right
          intro lc hlc
          have hx := generate_ok_none_exists env fs p' out ow evs0 hgen lc hlc
          exact process_preserves_existsAt env out ow rest _ _ _ hrun _ hx
        · exact hart p' hp''
    | some m =>
      rcases ih (applyTrace fs evs0) with ⟨ms, fs', hrun, hform, hart⟩
      refine ⟨m :: ms, fs', ?_, ?_, ?_⟩
      · simp only [process_images, hgen, hrun]
      · intro m' hm'
        rcases List.mem_cons.mp hm' with rfl | hm''
        · rcases generate_some_form env fs p out ow m' evs0 hgen with ⟨e, hme⟩
          exact ⟨p, List.mem_cons_self _ _, e, hme⟩
        · rcases hform m' hm'' with ⟨p', hp', e, hme⟩
          exact ⟨p', List.mem_cons_of_mem _ hp', e, hme⟩
      · intro p' hp'
        rcases List.mem_cons.mp hp' with rfl | hp''
        · left
          rcases generate_some_form env fs p' out ow m evs0 hgen with ⟨e, hme⟩
          exact ⟨e, by rw [← hme]; exact List.mem_cons_self _ _⟩
        · rcases hart p' hp'' with ⟨e, hin⟩ | hart'
          · exact Or.inl ⟨e, List.mem_cons_of_mem _ hin⟩
          · exact Or.inr hart'

/-- The empty filesystem. -/
def fs0 : FS := ⟨fun _ => none, fun _ => false⟩

/-- Environment where every `Path.exists()` call raises `PermissionError`. -/
def envC2bad : Env :=
  { envNice with existsErr := fun _ => some "PermissionError: [Errno 13] Permission denied" }

/-- Counterexample to claim C2 as stated: an exception in the freshness-check
stage (which sits *before* the `try` block, lines 145-156) is not converted
into an ErrorReport; it escapes the work item, so `process_images` aborts with
the exception instead of returning the list of per-file reports. -/
theorem claim_C2_counterexample :
    (process_images envC2bad fs0 [["a.jpg"], ["b.jpg"]] ["o"] false).1 =
      .error "PermissionError: [Errno 13] Permission denied" := by rfl

/-- Environment where decoding `bad.jpg` fails and everything else succeeds. -/
def envC2mix : Env :=
  { envNice with openImage := fun p =>
      if p = ["bad.jpg"] then Except.error "cannot identify image file"
      else Except.ok (Img.opened p) }

/-- Witness for claim C2 (amended) on a batch with one undecodable file. -/
theorem claim_C2_amended_witness :
    (∀ q : List String, envC2mix.existsErr q = none) ∧
    (∃ ms fs', process_images envC2mix fs0 [["bad.jpg"], ["img.jpg"]] ["o"] false =
        (.ok ms, fs') ∧
      (∀ m ∈ ms, ∃ p ∈ [["bad.jpg"], ["img.jpg"]], ∃ e, m = pathStr p ++ ": " ++ e) ∧
      (∀ p ∈ [["bad.jpg"], ["img.jpg"]],
        (∃ e, (pathStr p ++ ": " ++ e) ∈ ms) ∨
        ∀ lc ∈ THUMBNAIL_CONFIG,
          fs'.existsAt (["o"] ++ [lc.1, outFilename envC2mix p]) = true)) :=
  ⟨fun _ => rfl,
   claim_C2_amended envC2mix ["o"] false (fun _ => rfl) [["bad.jpg"], ["img.jpg"]] fs0⟩

/-! ## Claim C5: embedded PNG metadata -/

/-- Claim C5: every artifact saved by a run embeds exactly `Thumb::URI` (the
resolved source URI), `Thumb::MTime` (the stat mtime truncated to integer
seconds, stringified) and `Software` (`make-thumbnail`); the value is the same
for every tier's artifact of the run since it depends only on the source. -/
theorem claim_C5 (env : Env) (fs : FS) (p out : List String) (ow : Bool)
    (r : Except String (Option String)) (evs : List Event)
    (hrun : generate_thumbnails env fs p out ow = (r, evs))
    (q : List String) (sp : SavedPng) (hmem : Event.save q sp ∈ evs) :
    ∃ m, env.stMtime p = .ok m ∧
      sp.meta = [("Thumb::URI", env.resolveUri p),
        ("Thumb::MTime", toString (pyInt m)),
        ("Software", "make-thumbnail")] := by
  rcases generate_save_shape env fs p out ow r evs q sp hrun hmem
    with ⟨lc, hlc, hq, m, hm, hmeta⟩
  exact ⟨m, hm, hmeta⟩

/-- The plain `normal`-tier artifact of the concrete `envNice` run. -/
def spPlainNormal : SavedPng :=
  ⟨Img.resized (Img.transposed (Img.opened ["img.jpg"])) (128, 77),
   [("Thumb::URI", "file:///img.jpg"), ("Thumb::MTime", "5"),
    ("Software", "make-thumbnail")]⟩

/-- Witness for claim C5 on a concrete run. -/
theorem claim_C5_witness :
    ∃ m, envNice.stMtime ["img.jpg"] = .ok m ∧
      spPlainNormal.meta = [("Thumb::URI", envNice.resolveUri ["img.jpg"]),
        ("Thumb::MTime", toString (pyInt m)),
        ("Software", "make-thumbnail")] := by
  have hmem : Event.save ["o", "normal", "h15.png"] spPlainNormal ∈
      (generate_thumbnails envNice fs0 ["img.jpg"] ["o"] true).2 := by decide
  exact claim_C5 envNice fs0 ["img.jpg"] ["o"] true
    (generate_thumbnails envNice fs0 ["img.jpg"] ["o"] true).1
    (generate_thumbnails envNice fs0 ["img.jpg"] ["o"] true).2 rfl
    ["o", "normal", "h15.png"] spPlainNormal hmem

/-! ## Claim C9: the cache key determines the artifact names -/

/-- Claim C9: the cache filename is a function of the resolved URI alone
(`<hex digest>.png`), and every artifact a run writes sits at
`<output_base>/<tier>/<key>.png` — the key, not the original filename, names
the outputs. -/
theorem claim_C9 :
    (∀ (env : Env) (p1 p2 : List String), env.resolveUri p1 = env.resolveUri p2 →
      outFilename env p1 = outFilename env p2) ∧
    (∀ (env : Env) (p : List String),
      outFilename env p = env.md5hex (env.resolveUri p) ++ ".png") ∧
    (∀ (env : Env) (fs : FS) (p out : List String) (ow : Bool)
       (r : Except String (Option String)) (evs : List Event)
       (q : List String) (sp : SavedPng),
      generate_thumbnails env fs p out ow = (r, evs) → Event.save q sp ∈ evs →
      ∃ label ∈ tierLabels, q = out ++ [label, outFilename env p]) := by
  refine ⟨?_, fun env p => rfl, ?_⟩
  · intro env p1 p2 h
    simp [outFilename, h]
  · intro env fs p out ow r evs q sp hrun hmem
    rcases generate_save_shape env fs p out ow r evs q sp hrun hmem
      with ⟨lc, hlc, hq, _⟩
    exact ⟨lc.1, List.mem_map_of_mem _ hlc, hq⟩

/-- Environment where two distinct paths resolve to the same URI (e.g. two
links to one file). -/
def envAlias : Env := { envNice with resolveUri := fun _ => "file:///same" }

/-- Witness for claim C9: equal resolved URIs give equal cache filenames, and
a concrete run writes under the key-named path. -/
theorem claim_C9_witness :
    (envAlias.resolveUri ["a", "x.jpg"] = envAlias.resolveUri ["b", "y.jpg"] ∧
     outFilename envAlias ["a", "x.jpg"] = outFilename envAlias ["b", "y.jpg"]) ∧
    ∃ label ∈ tierLabels,
      ["o", "normal", "h15.png"] = ["o"] ++ [label, outFilename envNice ["img.jpg"]] := by
  have hmem : Event.save ["o", "normal", "h15.png"] spPlainNormal ∈
      (generate_thumbnails envNice fs0 ["img.jpg"] ["o"] true).2 := by decide
  exact ⟨⟨rfl, claim_C9.1 envAlias _ _ rfl⟩,
    claim_C9.2.2 envNice fs0 ["img.jpg"] ["o"] true
      (generate_thumbnails envNice fs0 ["img.jpg"] ["o"] true).1
      (generate_thumbnails envNice fs0 ["img.jpg"] ["o"] true).2
      ["o", "normal", "h15.png"] spPlainNormal rfl hmem⟩

/-! ## Claim C10: frame property of one run -/

/-- Claim C10 (amended): a run only changes file entries at the configured
tiers' `<key>.png` paths, and only changes directory entries on the ancestor
chains of the tier directories (`mkdir(parents=True)` also creates missing
ancestors of `<output_base>/<tier>`, including `<output_base>` itself and its
parents); this holds for error outcomes too. -/
theorem claim_C10_amended (env : Env) (fs : FS) (p out : List String) (ow : Bool)
    (r : Except String (Option String)) (evs : List Event)
    (hrun : generate_thumbnails env fs p out ow = (r, evs)) :
    (∀ q, (applyTrace fs evs).file q ≠ fs.file q →
      ∃ label ∈ tierLabels, q = out ++ [label, outFilename env p]) ∧
    (∀ q, (applyTrace fs evs).dir q ≠ fs.dir q →
      ∃ label ∈ tierLabels, initSeg q (out ++ [label]) = true) := by
  constructor
  · intro q hq
    rcases applyTrace_file_frame evs fs q hq with ⟨sp, hsp⟩
    rcases generate_save_shape env fs p out ow r evs q sp hrun hsp
      with ⟨lc, hlc, hq', _⟩
    exact ⟨lc.1, List.mem_map_of_mem _ hlc, hq'⟩
  · intro q hq
    rcases applyTrace_dir_frame evs fs q hq with ⟨d, hd, hseg⟩
    rcases generate_mkdir_shape env fs p out ow r evs d hrun hd with ⟨lc, hlc, rfl⟩
    exact ⟨lc.1, List.mem_map_of_mem _ hlc, hseg⟩

/-- Counterexample to claim C10 as stated: with output base `o/t` on an empty
filesystem, the run creates the directory `o`, a path strictly outside the
output tree (it is an ancestor of the output base), because
`mkdir(parents=True)` creates missing ancestors. -/
theorem claim_C10_counterexample :
    fs0.dir ["o"] = false ∧
    initSeg ["o", "t"] ["o"] = false ∧
    (applyTrace fs0
      (generate_thumbnails envNice fs0 ["img.jpg"] ["o", "t"] true).2).dir ["o"] = true := by
  refine ⟨rfl, rfl, by decide⟩

/-- Witness for claim C10 (amended) on a concrete run: the changed file entry
is a tier `<key>.png` path. -/
theorem claim_C10_amended_witness :
    (applyTrace fs0 (generate_thumbnails envNice fs0 ["img.jpg"] ["o"] true).2).file
        ["o", "normal", "h15.png"] ≠
      fs0.file ["o", "normal", "h15.png"] ∧
    ∃ label ∈ tierLabels,
      ["o", "normal", "h15.png"] = ["o"] ++ [label, outFilename envNice ["img.jpg"]] := by
  have hne : (applyTrace fs0
      (generate_thumbnails envNice fs0 ["img.jpg"] ["o"] true).2).file
        ["o", "normal", "h15.png"] ≠
      fs0.file ["o", "normal", "h15.png"] := by decide
  exact ⟨hne, (claim_C10_amended envNice fs0 ["img.jpg"] ["o"] true
    (generate_thumbnails envNice fs0 ["img.jpg"] ["o"] true).1
    (generate_thumbnails envNice fs0 ["img.jpg"] ["o"] true).2 rfl).1 _ hne⟩

/-! ## Claim C8: double write with the format label -/

/-- The font size looked up by `add_raw_label` matches the tier's configured
font size. -/
theorem fontSizeOf_mem (lc : String × TierCfg) (h : lc ∈ THUMBNAIL_CONFIG) :
    fontSizeOf lc.1 = lc.2.font_size := by
  fin_cases h <;> rfl

/-- Claim C8: for a source whose extension is in the labeled set, a generating
run (non-empty trace) that returned `None` wrote each tier's artifact exactly
twice, first the plain resized copy with the metadata, then the same path
overwritten with the labeled version (same metadata); the final on-disk entry
is the labeled one; the label is drawn at the top-left with padding equal to
half the tier's font size, black box, white text, and its text is the source's
lowercase extension. -/
theorem claim_C8 (env : Env) (fs : FS) (p out : List String) (ow : Bool)
    (evs : List Event)
    (hrun : generate_thumbnails env fs p out ow = (.ok none, evs))
    (hne : evs ≠ [])
    (hext : pyLower (pySuffix (lastComp p)) ∈ SUPPORTED_EXTENSIONS) :
    ∀ lc ∈ THUMBNAIL_CONFIG,
      ∃ (timg : Img) (meta : List (String × String)) (spec : LabelSpec),
        savesTo evs (out ++ [lc.1, outFilename env p]) =
          [⟨timg, meta⟩, ⟨Img.labeled timg spec, meta⟩] ∧
        (applyTrace fs evs).file (out ++ [lc.1, outFilename env p]) =
          some ⟨Img.labeled timg spec, meta⟩ ∧
        (∃ img0 : Img, timg = resizedCopy env img0 lc.2) ∧
        spec.text = pyLower (pySuffix (lastComp p)) ∧
        spec.font = FONT ∧
        spec.fontSize = lc.2.font_size ∧
        spec.pos = (0, 0) ∧
        spec.fill = "black" ∧
        spec.textFill = "white" ∧
        spec.rect =
          ((0 - ((lc.2.font_size / 2 : ℕ) : ℤ), 0 - ((lc.2.font_size / 2 : ℕ) : ℤ)),
           (((env.textBBox (0, 0) spec.text FONT lc.2.font_size).2.1 -
             (env.textBBox (0, 0) spec.text FONT lc.2.font_size).1.1) +
               ((lc.2.font_size / 2 : ℕ) : ℤ),
            ((env.textBBox (0, 0) spec.text FONT lc.2.font_size).2.2 -
             (env.textBBox (0, 0) spec.text FONT lc.2.font_size).1.2) +
               ((lc.2.font_size / 2 : ℕ) : ℤ))) := by
  intro lc hlc
  -- dissect the run: it is the generating branch
  simp only [generate_thumbnails] at hrun
  split at hrun
  · simp at hrun
  · have hevs : evs = [] := (((Prod.mk.injEq _ _ _ _).mp hrun).2).symm
    exact absurd hevs hne
  · split at hrun
    · simp at hrun
    · next evsT heq =>
      have hevs : evsT = evs := ((Prod.mk.injEq _ _ _ _).mp hrun).2
      subst hevs
      rcases tryBody_ok_structure env p out _ _ _ heq
        with ⟨evsD, evsR, img0, m, rfl, hdec, hm, hrt⟩
      have hnd : (THUMBNAIL_CONFIG.map Prod.fst).Nodup := by decide
      rcases renderTiers_savesTo env (Img.transposed img0)
        (metaOf (env.resolveUri p) m) (pyLower (pySuffix (lastComp p))) out
        (env.md5hex (env.resolveUri p) ++ ".png") hext THUMBNAIL_CONFIG evsR hrt hnd lc hlc
        with ⟨thumb2, hlab, hsv⟩
      have hfs := fontSizeOf_mem lc hlc
      have hth := add_raw_label_ok env (resizedCopy env (Img.transposed img0) lc.2)
        lc.1 (pyLower (pySuffix (lastComp p))) thumb2 hlab
      -- the two saves at the tier path
      have hD : savesTo evsD (out ++ [lc.1, outFilename env p]) = [] := by
        apply savesTo_eq_nil
        intro sp hsp
        have hsp' : Event.save (out ++ [lc.1, outFilename env p]) sp ∈
            (decodeStage env p).1 := by
          rw [hdec]
          exact hsp
        rcases decodeStage_trace_shape env p _ hsp' with ⟨a, ha⟩ | ⟨b, hb⟩ | ⟨r, hr⟩ <;>
          simp_all
      have hsv' : savesTo evsR (out ++ [lc.1, outFilename env p]) =
          [⟨resizedCopy env (Img.transposed img0) lc.2, metaOf (env.resolveUri p) m⟩,
           ⟨thumb2, metaOf (env.resolveUri p) m⟩] := hsv
      have hall : savesTo (evsD ++ evsR) (out ++ [lc.1, outFilename env p]) =
          [⟨resizedCopy env (Img.transposed img0) lc.2, metaOf (env.resolveUri p) m⟩,
           ⟨thumb2, metaOf (env.resolveUri p) m⟩] := by
        rw [savesTo_append, hD, hsv']
        rfl
      rw [hfs] at hth
      refine ⟨resizedCopy env (Img.transposed img0) lc.2, metaOf (env.resolveUri p) m,
        { text := pyLower (pySuffix (lastComp p))
          font := FONT
          fontSize := lc.2.font_size
          pos := (0, 0)
          rect := ((0 - ((lc.2.font_size / 2 : ℕ) : ℤ), 0 - ((lc.2.font_size / 2 : ℕ) : ℤ)),
            (((env.textBBox (0, 0) (pyLower (pySuffix (lastComp p))) FONT
                  lc.2.font_size).2.1 -
              (env.textBBox (0, 0) (pyLower (pySuffix (lastComp p))) FONT
                  lc.2.font_size).1.1) + ((lc.2.font_size / 2 : ℕ) : ℤ),
             ((env.textBBox (0, 0) (pyLower (pySuffix (lastComp p))) FONT
                  lc.2.font_size).2.2 -
              (env.textBBox (0, 0) (pyLower (pySuffix (lastComp p))) FONT
                  lc.2.font_size).1.2) + ((lc.2.font_size / 2 : ℕ) : ℤ)))
          fill := "black"
          textFill := "white" },
        ?_, ?_, ?_, ?_, ?_, ?_, ?_, ?_, ?_, ?_⟩
      · rw [hall, hth]
      · rw [applyTrace_file_eq, hall, hth]
        rfl
      · exact ⟨Img.transposed img0, rfl⟩
      · rfl
      · rfl
      · rfl
      · rfl
      · rfl
      · rfl
      · rfl

/-- Witness for claim C8 on a concrete run at the `normal` tier. -/
theorem claim_C8_witness :
    (generate_thumbnails envNice fs0 ["img.jpg"] ["o"] true =
      (.ok none, (generate_thumbnails envNice fs0 ["img.jpg"] ["o"] true).2)) ∧
    ((generate_thumbnails envNice fs0 ["img.jpg"] ["o"] true).2 ≠ []) ∧
    (pyLower (pySuffix (lastComp ["img.jpg"])) ∈ SUPPORTED_EXTENSIONS) ∧
    ∃ (timg : Img) (meta : List (String × String)) (spec : LabelSpec),
      savesTo (generate_thumbnails envNice fs0 ["img.jpg"] ["o"] true).2
          (["o"] ++ ["normal", outFilename envNice ["img.jpg"]]) =
        [⟨timg, meta⟩, ⟨Img.labeled timg spec, meta⟩] ∧
      (applyTrace fs0 (generate_thumbnails envNice fs0 ["img.jpg"] ["o"] true).2).file
          (["o"] ++ ["normal", outFilename envNice ["img.jpg"]]) =
        some ⟨Img.labeled timg spec, meta⟩ ∧
      (∃ img0 : Img, timg = resizedCopy envNice img0 ⟨(128, 128), 20⟩) ∧
      spec.text = pyLower (pySuffix (lastComp ["img.jpg"])) ∧
      spec.font = FONT ∧
      spec.fontSize = 20 ∧
      spec.pos = (0, 0) ∧
      spec.fill = "black" ∧
      spec.textFill = "white" ∧
      spec.rect = ((0 - (10 : ℤ), 0 - (10 : ℤ)),
        (((envNice.textBBox (0, 0) spec.text FONT 20).2.1 -
          (envNice.textBBox (0, 0) spec.text FONT 20).1.1) + (10 : ℤ),
         ((envNice.textBBox (0, 0) spec.text FONT 20).2.2 -
          (envNice.textBBox (0, 0) spec.text FONT 20).1.2) + (10 : ℤ))) := by
  have h1 : generate_thumbnails envNice fs0 ["img.jpg"] ["o"] true =
      (.ok none, (generate_thumbnails envNice fs0 ["img.jpg"] ["o"] true).2) := rfl
  have h2 : (generate_thumbnails envNice fs0 ["img.jpg"] ["o"] true).2 ≠ [] := by decide
  have h3 : pyLower (pySuffix (lastComp ["img.jpg"])) ∈ SUPPORTED_EXTENSIONS := by decide
  exact ⟨h1, h2, h3, claim_C8 envNice fs0 ["img.jpg"] ["o"] true _ h1 h2 h3
    ("normal", ⟨(128, 128), 20⟩) (by decide)⟩
